import Mathlib

/-! Triplanar BlinkScript kernel.

A shallow embedding of `src/gizmos/triplanar_blinkscript/triplanar.cpp` and theorems about it.

Modelling conventions.

* `float` values are rationals (`ℚ`): arithmetic is exact, there is no rounding, overflow,
  infinity or NaN. `int` values are integers (`ℤ`).
* Where float32 rounding, underflow or overflow decides a property, the same source lines are
  also evaluated in float32 (`computeUVsF32`, `computeWeightsF32`): every operation rounds to
  the nearest float32, with infinities and NaN.
* `float2`, `float3`, `float4`, `int2` are records; the vector operators of the kernel language
  act component-wise.
* The kernel object (parameters and locals of the `kernel` block) is the record `Kernel`; `init`
  maps the configured kernel to the initialised one, exactly as the source overwrites its fields.
* Library functions whose values are not rational (`sin`, `cos`, `sqrt`, `pow` on a positive
  base) are taken as parameters, gathered in `Intrinsics`.
* `pow` has a pole at base `0` with a negative exponent (the library returns `+∞` there); the
  embedding returns `none` at the pole, so `computeWeights` and `process` return an `Option`.
* `/` is division of rationals. The source divides floats, so a theorem that relies on a quotient
  proves or assumes that its divisor is not zero.
* Image reads are inputs: the per-pixel reads are gathered in `PixelInputs`, a random-access
  texture is a `Texture` (its bounds and its two fetch primitives).
-/

namespace Triplanar

/-! ## Vector types -/

/-- Two floats, the `float2` of the kernel language. -/
structure Float2 where
  x : ℚ
  y : ℚ
deriving DecidableEq

/-- Three floats, the `float3` of the kernel language. -/
structure Float3 where
  x : ℚ
  y : ℚ
  z : ℚ
deriving DecidableEq

/-- Four floats, the `float4` of the kernel language; `w` is the alpha channel of a colour. -/
structure Float4 where
  x : ℚ
  y : ℚ
  z : ℚ
  w : ℚ
deriving DecidableEq

/-- Two ints, the `int2` of the kernel language. -/
structure Int2 where
  x : ℤ
  y : ℤ
deriving DecidableEq

/-- The vector `float2(0.0f)`. -/
def Float2.zero : Float2 := ⟨0, 0⟩

/-- Component-wise `a + b` on `float2`. -/
def Float2.add (a b : Float2) : Float2 := ⟨a.x + b.x, a.y + b.y⟩

/-- Component-wise `a - b` on `float2`. -/
def Float2.sub (a b : Float2) : Float2 := ⟨a.x - b.x, a.y - b.y⟩

/-- The product `v * s` of a `float2` with a scalar. -/
def Float2.scale (v : Float2) (s : ℚ) : Float2 := ⟨v.x * s, v.y * s⟩

/-- The quotient `v / s` of a `float2` by a scalar. -/
def Float2.divS (v : Float2) (s : ℚ) : Float2 := ⟨v.x / s, v.y / s⟩

/-- Component-wise `v * n` of a `float2` with an `int2`. -/
def Float2.mulInt2 (v : Float2) (n : Int2) : Float2 := ⟨v.x * (n.x : ℚ), v.y * (n.y : ℚ)⟩

/-- Component-wise `v / n` of a `float2` by an `int2`. -/
def Float2.divInt2 (v : Float2) (n : Int2) : Float2 := ⟨v.x / (n.x : ℚ), v.y / (n.y : ℚ)⟩

/-- The vector `float3(0.0f)`. -/
def Float3.zero : Float3 := ⟨0, 0, 0⟩

/-- The vector `float4(0.0f)`. -/
def Float4.zero : Float4 := ⟨0, 0, 0, 0⟩

/-- Component-wise `a + b` on `float4`. -/
def Float4.add (a b : Float4) : Float4 := ⟨a.x + b.x, a.y + b.y, a.z + b.z, a.w + b.w⟩

/-- The product `v * s` of a `float4` with a scalar: all four channels are multiplied. -/
def Float4.scale (v : Float4) (s : ℚ) : Float4 := ⟨v.x * s, v.y * s, v.z * s, v.w * s⟩

/-- The quotient `v / s` of a `float4` by a scalar. -/
def Float4.divS (v : Float4) (s : ℚ) : Float4 := ⟨v.x / s, v.y / s, v.z / s, v.w / s⟩

/-- Component-wise `fabs` on `float4`. -/
def Float4.fabs (v : Float4) : Float4 := ⟨|v.x|, |v.y|, |v.z|, |v.w|⟩

/-! ## Library functions and images -/

/-- Library functions with irrational values, taken as parameters. `powPos x e` stands for
`pow(x, e)` on a base `x > 0` and an exponent `e ≠ 0`. -/
structure Intrinsics where
  sin : ℚ → ℚ
  cos : ℚ → ℚ
  sqrt : ℚ → ℚ
  powPos : ℚ → ℚ → ℚ

/-- The library function `pow(x, e)` on a base `x ≥ 0`, as `computeWeights` calls it:
`pow(x, 0) = 1` for every base, `pow(0, e) = 0` for `e > 0`, `pow(0, e) = +∞` for `e < 0`
(no rational value: `none`), and `Intrinsics.powPos` on a positive base. This is `pow` in exact
arithmetic, without underflow or overflow; the float32 evaluation `computeWeightsF32` takes the
float32 `pow` as a parameter. -/
def powf (I : Intrinsics) (x e : ℚ) : Option ℚ :=
  if e = 0 then some 1
  else if x = 0 then (if e < 0 then none else some 0)
  else some (I.powPos x e)

/-- The library function `length` on `float2`. -/
def Float2.length (I : Intrinsics) (v : Float2) : ℚ := I.sqrt (v.x * v.x + v.y * v.y)

/-- The library function `normalize` on `float2`: the vector divided by its length. -/
def Float2.normalize (I : Intrinsics) (v : Float2) : Float2 := v.divS (v.length I)

/-- A random-access, edge-clamped input texture: the width and height of its bounds, the fetch
`im(x, y)` and the library fetch `bilinear(im, x, y)`. -/
structure Texture where
  width : ℤ
  height : ℤ
  fetch : ℚ → ℚ → Float4
  bilinear : ℚ → ℚ → Float4

/-- The image reads of one `process` call: `imBeauty()`, `imWorldPos(0, 0)`, `imWorldPos(1, 0)`,
`imWorldPos(0, 1)` and `imWorldNormal()`. -/
structure PixelInputs where
  beauty : Float4
  pos : Float4
  posRight : Float4
  posDown : Float4
  normal : Float4

/-! ## The kernel object -/

/-- The `param:` and `local:` fields of the kernel. The defaults of the parameters are the ones
`define()` registers; the locals are written by `init`. -/
structure Kernel where
  axisOutput : ℤ := 3
  premult : Bool := true
  useTextureAlpha : Bool := false
  offsetGlobal : Float2 := ⟨0, 0⟩
  scaleGlobal : ℚ := 1
  rotateAngleGlobal : ℚ := 0
  blendExponent : ℚ := 1
  filterMode : ℤ := 0
  anisotropicSampleCount : ℤ := 8
  offsetX : Float2 := ⟨0, 0⟩
  angleX : ℚ := 0
  scaleX : ℚ := 1
  offsetY : Float2 := ⟨0, 0⟩
  angleY : ℚ := 0
  scaleY : ℚ := 1
  offsetZ : Float2 := ⟨0, 0⟩
  angleZ : ℚ := 0
  scaleZ : ℚ := 1
  kWeightThreshold : ℚ := 0
  textureX_Size : Int2 := ⟨0, 0⟩
  textureY_Size : Int2 := ⟨0, 0⟩
  textureZ_Size : Int2 := ⟨0, 0⟩
  rotateX_Sin : ℚ := 0
  rotateX_Cos : ℚ := 0
  rotateY_Sin : ℚ := 0
  rotateY_Cos : ℚ := 0
  rotateZ_Sin : ℚ := 0
  rotateZ_Cos : ℚ := 0

/-- Source `angleToRad`: degrees to radians with the literal `3.1415926535f`. -/
def angleToRad (angle : ℚ) : ℚ := angle * (31415926535 / 10000000000) / 180

/-- Source `init`. It has no failure path: every configuration yields an initialised kernel.
The cached sizes are `int2(bounds.height(), bounds.width())`, as written in the source. -/
def init (I : Intrinsics) (tX tY tZ : Texture) (k : Kernel) : Kernel :=
  let kWeightThreshold : ℚ := 1 / 10000
  let filterMode := max k.filterMode 0
  let filterMode := min filterMode 2
  let textureX_Size : Int2 := ⟨tX.height, tX.width⟩
  let textureY_Size : Int2 := ⟨tY.height, tY.width⟩
  let textureZ_Size : Int2 := ⟨tZ.height, tZ.width⟩
  let angleRadX := angleToRad (k.angleX + k.rotateAngleGlobal)
  let angleRadY := angleToRad (k.angleY + k.rotateAngleGlobal)
  let angleRadZ := angleToRad (k.angleZ + k.rotateAngleGlobal)
  { k with
    kWeightThreshold := kWeightThreshold
    filterMode := filterMode
    textureX_Size := textureX_Size
    textureY_Size := textureY_Size
    textureZ_Size := textureZ_Size
    rotateX_Sin := I.sin angleRadX
    rotateX_Cos := I.cos angleRadX
    rotateY_Sin := I.sin angleRadY
    rotateY_Cos := I.cos angleRadY
    rotateZ_Sin := I.sin angleRadZ
    rotateZ_Cos := I.cos angleRadZ
    offsetX := (k.offsetX.add k.offsetGlobal).divInt2 textureX_Size
    offsetY := (k.offsetY.add k.offsetGlobal).divInt2 textureY_Size
    offsetZ := (k.offsetZ.add k.offsetGlobal).divInt2 textureZ_Size
    scaleX := k.scaleX * k.scaleGlobal
    scaleY := k.scaleY * k.scaleGlobal
    scaleZ := k.scaleZ * k.scaleGlobal }

/-! ## Weights -/

/-- Source `computeWeights`, lines 141-143: the exponent applied to each component. -/
def rawWeights (I : Intrinsics) (k : Kernel) (absNormal : Float4) : Option Float3 :=
  match powf I absNormal.x k.blendExponent, powf I absNormal.y k.blendExponent,
    powf I absNormal.z k.blendExponent with
  | some weightX, some weightY, some weightZ => some ⟨weightX, weightY, weightZ⟩
  | _, _, _ => none

/-- Source `computeWeights`, lines 146-149: each raw weight divided by their sum. -/
def normalizeWeights (raw : Float3) : Float3 :=
  let total := raw.x + raw.y + raw.z
  ⟨raw.x / total, raw.y / total, raw.z / total⟩

/-- Source `computeWeights`, lines 153-159: weights below the threshold become `0`. -/
def cullWeights (k : Kernel) (w : Float3) : Float3 :=
  let weightX := if w.x < k.kWeightThreshold then 0 else w.x
  let weightY := if w.y < k.kWeightThreshold then 0 else w.y
  let weightZ := if w.z < k.kWeightThreshold then 0 else w.z
  ⟨weightX, weightY, weightZ⟩

/-- Source `computeWeights`, up to line 149: the normalized weights before the threshold step
(`float3(0.0f)` on the all-zero normal, where the source returns early). -/
def normalizedWeights (I : Intrinsics) (k : Kernel) (normal : Float4) : Option Float3 :=
  let absNormal := normal.fabs
  if absNormal.x = 0 ∧ absNormal.y = 0 ∧ absNormal.z = 0 then some Float3.zero
  else (rawWeights I k absNormal).map normalizeWeights

/-- Source `computeWeights`, in exact arithmetic (`computeWeightsF32` is the float32 evaluation
of the same lines). -/
def computeWeights (I : Intrinsics) (k : Kernel) (normal : Float4) : Option Float3 :=
  let absNormal := normal.fabs
  if absNormal.x = 0 ∧ absNormal.y = 0 ∧ absNormal.z = 0 then some Float3.zero
  else (rawWeights I k absNormal).map (fun raw => cullWeights k (normalizeWeights raw))

/-! ## UV projection -/

/-- The four locals of `computeUVs`: `scaleLocal`, `offsetLocal`, `angleCosLocal`,
`angleSinLocal`. -/
structure AxisLocal where
  scaleLocal : ℚ
  offsetLocal : Float2
  angleCosLocal : ℚ
  angleSinLocal : ℚ

/-- Source `computeUVs`, lines 167-190: the clamp of the axis id and the three consecutive `if`
statements that assign the locals. The locals are declared without a value; `0` stands for it. -/
def axisLocals (k : Kernel) (axis : ℤ) : AxisLocal :=
  let axis := max axis 0
  let axis := min axis 2
  let loc : AxisLocal := ⟨0, ⟨0, 0⟩, 0, 0⟩
  let loc := if axis = 0 then ⟨k.scaleX, k.offsetX, k.rotateX_Cos, k.rotateX_Sin⟩ else loc
  let loc := if axis = 1 then ⟨k.scaleY, k.offsetY, k.rotateY_Cos, k.rotateY_Sin⟩ else loc
  let loc := if axis = 2 then ⟨k.scaleZ, k.offsetZ, k.rotateZ_Cos, k.rotateZ_Sin⟩ else loc
  loc

/-- Source `computeUVs`: scale, subtract the offset, rotate, keep the fractional part; in exact
arithmetic (`computeUVsF32` is the float32 evaluation of the same lines). -/
def computeUVs (k : Kernel) (x y : ℚ) (axis : ℤ) : Float2 :=
  let loc := axisLocals k axis
  let uv : Float2 := (Float2.mk (x * loc.scaleLocal) (y * loc.scaleLocal)).sub loc.offsetLocal
  let uv : Float2 := ⟨uv.x * loc.angleCosLocal - uv.y * loc.angleSinLocal,
    uv.x * loc.angleSinLocal + uv.y * loc.angleCosLocal⟩
  let uv : Float2 := ⟨uv.x - (⌊uv.x⌋ : ℤ), uv.y - (⌊uv.y⌋ : ℤ)⟩
  uv

/-- Source `computeUVs`, line 196: the rotation of a UV by a stored cosine and sine. -/
def rotateUV (uv : Float2) (angleCosLocal angleSinLocal : ℚ) : Float2 :=
  ⟨uv.x * angleCosLocal - uv.y * angleSinLocal, uv.x * angleSinLocal + uv.y * angleCosLocal⟩

/-- Source `wrappedDiff`: two consecutive `if` statements on the running difference. -/
def wrappedDiff (a b : ℚ) : ℚ :=
  let diff := a - b
  let diff := if diff > 1 / 2 then diff - 1 else diff
  let diff := if diff < -(1 / 2) then diff + 1 else diff
  diff

/-- Source `wrappedDiff2`. -/
def wrappedDiff2 (uv1 uv2 : Float2) : Float2 :=
  ⟨wrappedDiff uv1.x uv2.x, wrappedDiff uv1.y uv2.y⟩

/-- Source `computeUVDerivatives`. -/
def computeUVDerivatives (k : Kernel) (uv : Float2) (xOffset yOffset : ℚ) (axis : ℤ) : Float2 :=
  let uvOffset := computeUVs k xOffset yOffset axis
  wrappedDiff2 uv uvOffset

/-! ## Samplers -/

/-- Source `sampleLinear`. -/
def sampleLinear (k : Kernel) (tX tY tZ : Texture) (uv : Float2) (axis : ℤ) : Float4 :=
  let axis := max axis 0
  let axis := min axis 2
  if axis = 0 then
    let uv := uv.mulInt2 k.textureX_Size
    tX.fetch uv.x uv.y
  else if axis = 1 then
    let uv := uv.mulInt2 k.textureY_Size
    tY.fetch uv.x uv.y
  else
    let uv := uv.mulInt2 k.textureZ_Size
    tZ.fetch uv.x uv.y

/-- Source `sampleBilinear`. -/
def sampleBilinear (k : Kernel) (tX tY tZ : Texture) (uv : Float2) (axis : ℤ) : Float4 :=
  let axis := max axis 0
  let axis := min axis 2
  if axis = 0 then
    let uv := uv.mulInt2 k.textureX_Size
    tX.bilinear uv.x uv.y
  else if axis = 1 then
    let uv := uv.mulInt2 k.textureY_Size
    tY.bilinear uv.x uv.y
  else
    let uv := uv.mulInt2 k.textureZ_Size
    tZ.bilinear uv.x uv.y

/-- Source `sampleAnisotropic`, lines 267-280: the right and down UV derivatives of the (already
clamped) axis. -/
def anisoDerivatives (k : Kernel) (uv : Float2) (posRight posDown : Float4) (axis : ℤ) :
    Float2 × Float2 :=
  let d : Float2 × Float2 := (Float2.zero, Float2.zero)
  let d := if axis = 0 then
      (computeUVDerivatives k uv posRight.y posRight.z 0,
        computeUVDerivatives k uv posDown.y posDown.z 0)
    else d
  let d := if axis = 1 then
      (computeUVDerivatives k uv posRight.x posRight.z 1,
        computeUVDerivatives k uv posDown.x posDown.z 1)
    else d
  let d := if axis = 2 then
      (computeUVDerivatives k uv posRight.x posRight.y 2,
        computeUVDerivatives k uv posDown.x posDown.y 2)
    else d
  d

/-- Source `sampleAnisotropic`, lines 282-295: the dominant derivative, as the pair
`(majorDir, maxDerivative)`. -/
def anisoMajor (I : Intrinsics) (uv_RightD uv_DownD : Float2) : Float2 × ℚ :=
  let len_uv_RightD := uv_RightD.length I
  let len_uv_DownD := uv_DownD.length I
  if len_uv_RightD > len_uv_DownD then (uv_RightD.normalize I, len_uv_RightD)
  else (uv_DownD.normalize I, len_uv_DownD)

/-- Source `sampleAnisotropic`, line 298: `step = maxDerivative / (anisotropicSampleCount - 1)`. -/
def anisoStep (k : Kernel) (maxDerivative : ℚ) : ℚ :=
  maxDerivative / ((k.anisotropicSampleCount - 1 : ℤ) : ℚ)

/-- Source `sampleAnisotropic`, line 299: `centerOffset = (anisotropicSampleCount - 1) * 0.5`. -/
def anisoCenterOffset (k : Kernel) : ℚ :=
  ((k.anisotropicSampleCount - 1 : ℤ) : ℚ) * (1 / 2)

/-- Source `sampleAnisotropic`, line 304: the offset of tap `i` along the major direction. -/
def anisoOffset (k : Kernel) (maxDerivative : ℚ) (i : ℕ) : ℚ :=
  ((i : ℚ) - anisoCenterOffset k) * anisoStep k maxDerivative

/-- Source `sampleAnisotropic`, line 305: the UV at which tap `i` is taken. -/
def anisoSampleUV (k : Kernel) (uv majorDir : Float2) (maxDerivative : ℚ) (i : ℕ) : Float2 :=
  uv.add (majorDir.scale (anisoOffset k maxDerivative i))

/-- Source `sampleAnisotropic`, lines 304-316: the colour fetched by tap `i`. -/
def anisoTap (k : Kernel) (tX tY tZ : Texture) (uv majorDir : Float2) (maxDerivative : ℚ)
    (axis : ℤ) (i : ℕ) : Float4 :=
  let sampleUV := anisoSampleUV k uv majorDir maxDerivative i
  let sampleColor := Float4.zero
  let sampleColor := if axis = 0 then
      let sampleUV := sampleUV.mulInt2 k.textureX_Size
      tX.fetch sampleUV.x sampleUV.y
    else sampleColor
  let sampleColor := if axis = 1 then
      let sampleUV := sampleUV.mulInt2 k.textureY_Size
      tY.fetch sampleUV.x sampleUV.y
    else sampleColor
  let sampleColor := if axis = 2 then
      let sampleUV := sampleUV.mulInt2 k.textureZ_Size
      tZ.fetch sampleUV.x sampleUV.y
    else sampleColor
  sampleColor

/-- Source `sampleAnisotropic`: the loop `for (i = 0; i < anisotropicSampleCount; i++)` is a
fold over `0, ..., anisotropicSampleCount - 1` (no iteration when the count is not positive). -/
def sampleAnisotropic (I : Intrinsics) (k : Kernel) (tX tY tZ : Texture) (uv : Float2)
    (posRight posDown : Float4) (axis : ℤ) : Float4 :=
  let axis := max axis 0
  let axis := min axis 2
  let d := anisoDerivatives k uv posRight posDown axis
  let m := anisoMajor I d.1 d.2
  let result := (List.range k.anisotropicSampleCount.toNat).foldl
    (fun result i => result.add (anisoTap k tX tY tZ uv m.1 m.2 axis i)) Float4.zero
  result.divS (k.anisotropicSampleCount : ℚ)

/-- Source `sampleAnisotropic`, lines 264-295: the pair `(majorDir, maxDerivative)` that the
sampler computes from the centre UV, the two neighbour positions and the axis id. -/
def anisoFootprint (I : Intrinsics) (k : Kernel) (uv : Float2) (posRight posDown : Float4)
    (axis : ℤ) : Float2 × ℚ :=
  let axis := max axis 0
  let axis := min axis 2
  let d := anisoDerivatives k uv posRight posDown axis
  anisoMajor I d.1 d.2

/-! ## The per-pixel kernel -/

/-- Source `process`, lines 333-359: the three UVs and the three texture samples, selected by
`filterMode` with three consecutive `if` statements. -/
def processSamples (I : Intrinsics) (k : Kernel) (tX tY tZ : Texture) (px : PixelInputs) :
    Float4 × Float4 × Float4 :=
  let pos := px.pos
  let uvX := computeUVs k pos.y pos.z 0
  let uvY := computeUVs k pos.x pos.z 1
  let uvZ := computeUVs k pos.x pos.y 2
  let s : Float4 × Float4 × Float4 := (Float4.zero, Float4.zero, Float4.zero)
  let s := if k.filterMode = 0 then
      (sampleLinear k tX tY tZ uvX 0, sampleLinear k tX tY tZ uvY 1, sampleLinear k tX tY tZ uvZ 2)
    else s
  let s := if k.filterMode = 1 then
      (sampleBilinear k tX tY tZ uvX 0, sampleBilinear k tX tY tZ uvY 1,
        sampleBilinear k tX tY tZ uvZ 2)
    else s
  let s := if k.filterMode = 2 then
      (sampleAnisotropic I k tX tY tZ uvX px.posRight px.posDown 0,
        sampleAnisotropic I k tX tY tZ uvY px.posRight px.posDown 1,
        sampleAnisotropic I k tX tY tZ uvZ px.posRight px.posDown 2)
    else s
  s

/-- Source `process`, lines 361-385: the output before premultiplication, from the weights and
the three texture samples, with four consecutive `if` statements on `axisOutput`. The condition
`(! useTextureAlpha) && (...) > 0.0f` of the blended branch is written as two nested tests. -/
def processOutput (k : Kernel) (weights : Float3) (texSampleX texSampleY texSampleZ : Float4) :
    Float4 :=
  let output := Float4.zero
  let output := if k.axisOutput ≤ 0 then
      let output := texSampleX.scale weights.x
      if !k.useTextureAlpha then { output with w := weights.x } else output
    else output
  let output := if k.axisOutput = 1 then
      let output := texSampleY.scale weights.y
      if !k.useTextureAlpha then { output with w := weights.y } else output
    else output
  let output := if k.axisOutput = 2 then
      let output := texSampleZ.scale weights.z
      if !k.useTextureAlpha then { output with w := weights.z } else output
    else output
  let output := if k.axisOutput ≥ 3 then
      let output := ((texSampleX.scale weights.x).add (texSampleY.scale weights.y)).add
        (texSampleZ.scale weights.z)
      if !k.useTextureAlpha then
        if output.x + output.y + output.z > 0 then { output with w := 1 } else output
      else output
    else output
  output

/-- Source `process`, lines 387-399: the premultiplication by the alpha of the beauty pixel. -/
def processPremult (k : Kernel) (beauty : Float4) (output : Float4) : Float4 :=
  if k.premult then
    let output := output.scale beauty.w
    if k.useTextureAlpha then
      let alpha := output.w
      let output := output.scale alpha
      { output with w := alpha }
    else output
  else output

/-- Source `process`: the pixel written to `dst()`; `none` when a weight has no finite value. -/
def process (I : Intrinsics) (k : Kernel) (tX tY tZ : Texture) (px : PixelInputs) :
    Option Float4 :=
  match computeWeights I k px.normal with
  | none => none
  | some weights =>
    let s := processSamples I k tX tY tZ px
    some (processPremult k px.beauty (processOutput k weights s.1 s.2.1 s.2.2))

/-! ## Float32 evaluation

The definitions above compute with exact rationals. The definitions of this section evaluate the
same source lines in float32: every arithmetic operation rounds its exact result to the nearest
float32 (ties to even), a result beyond the float32 range is an infinity, and `0/0`, `∞/∞`,
`∞ - ∞` and `0 * ∞` are NaN. Zero carries no sign; a nonzero number divided by zero is the
infinity with the sign of the number. The inputs of a function (positions, normals, kernel
fields) are finite float32 values, given as rationals. -/

/-- A float32 value: a finite number, an infinity with its sign, or a NaN. -/
inductive F32 where
  | fin (q : ℚ)
  | inf (negative : Bool)
  | nan
deriving DecidableEq

/-- Rounding of a rational to the nearest integer, a tie going to the even integer. -/
def roundNearestEven (t : ℚ) : ℤ :=
  let f : ℤ := ⌊t⌋
  if t - f < 1 / 2 then f
  else if t - f > 1 / 2 then f + 1
  else if f % 2 = 0 then f else f + 1

/-- The exponent of the float32 spacing at `q`: 24 significant bits, and `2^-149` for the
subnormal numbers. -/
def ulpExp (q : ℚ) : ℤ := max (Int.log 2 |q| - 23) (-149)

/-- Rounding of a rational to float32 precision (round to nearest, ties to even), before the
range check. -/
def roundF32 (q : ℚ) : ℚ := (roundNearestEven (q / 2 ^ ulpExp q) : ℚ) * 2 ^ ulpExp q

/-- The float32 result of an operation whose exact result is `q`: the rounded value, or an
infinity when the rounded value is beyond the largest float32. -/
def F32.ofRat (q : ℚ) : F32 :=
  if 2 ^ (128 : ℕ) ≤ |roundF32 q| then F32.inf (decide (q < 0)) else F32.fin (roundF32 q)

/-- Float32 negation. -/
def F32.neg : F32 → F32
  | F32.fin q => F32.fin (-q)
  | F32.inf s => F32.inf (!s)
  | F32.nan => F32.nan

/-- Float32 addition. -/
def F32.add : F32 → F32 → F32
  | F32.fin a, F32.fin b => F32.ofRat (a + b)
  | F32.fin _, F32.inf s => F32.inf s
  | F32.inf s, F32.fin _ => F32.inf s
  | F32.inf s, F32.inf t => if s = t then F32.inf s else F32.nan
  | F32.nan, _ => F32.nan
  | _, F32.nan => F32.nan

/-- Float32 subtraction. -/
def F32.sub (a b : F32) : F32 := a.add b.neg

/-- Float32 multiplication. -/
def F32.mul : F32 → F32 → F32
  | F32.fin a, F32.fin b => F32.ofRat (a * b)
  | F32.fin a, F32.inf s => if a = 0 then F32.nan else F32.inf (s != decide (a < 0))
  | F32.inf s, F32.fin b => if b = 0 then F32.nan else F32.inf (s != decide (b < 0))
  | F32.inf s, F32.inf t => F32.inf (s != t)
  | F32.nan, _ => F32.nan
  | _, F32.nan => F32.nan

/-- Float32 division. -/
def F32.div : F32 → F32 → F32
  | F32.fin a, F32.fin b =>
    if b = 0 then (if a = 0 then F32.nan else F32.inf (decide (a < 0))) else F32.ofRat (a / b)
  | F32.fin _, F32.inf _ => F32.fin 0
  | F32.inf s, F32.fin b => F32.inf (s != decide (b < 0))
  | F32.inf _, F32.inf _ => F32.nan
  | F32.nan, _ => F32.nan
  | _, F32.nan => F32.nan

/-- Float32 comparison `a < b`; false when an operand is a NaN. -/
def F32.lt : F32 → F32 → Bool
  | F32.fin a, F32.fin b => decide (a < b)
  | F32.fin _, F32.inf s => !s
  | F32.inf s, F32.fin _ => s
  | F32.inf s, F32.inf t => if s then !t else false
  | F32.nan, _ => false
  | _, F32.nan => false

/-- Float32 `floor`. -/
def F32.floor : F32 → F32
  | F32.fin q => F32.fin ((⌊q⌋ : ℤ) : ℚ)
  | F32.inf s => F32.inf s
  | F32.nan => F32.nan

/-- Two float32 values, a `float2` evaluated in float32. -/
structure F32x2 where
  x : F32
  y : F32
deriving DecidableEq

/-- Three float32 values, a `float3` evaluated in float32. -/
structure F32x3 where
  x : F32
  y : F32
  z : F32
deriving DecidableEq

/-- Source `computeUVs`, evaluated in float32. -/
def computeUVsF32 (k : Kernel) (x y : ℚ) (axis : ℤ) : F32x2 :=
  let loc := axisLocals k axis
  let uvx := ((F32.fin x).mul (F32.fin loc.scaleLocal)).sub (F32.fin loc.offsetLocal.x)
  let uvy := ((F32.fin y).mul (F32.fin loc.scaleLocal)).sub (F32.fin loc.offsetLocal.y)
  let rx := (uvx.mul (F32.fin loc.angleCosLocal)).sub (uvy.mul (F32.fin loc.angleSinLocal))
  let ry := (uvx.mul (F32.fin loc.angleSinLocal)).add (uvy.mul (F32.fin loc.angleCosLocal))
  ⟨rx.sub rx.floor, ry.sub ry.floor⟩

/-- Source `computeWeights`, lines 141-143, evaluated in float32; `pow32` is the float32 library
function `pow`. -/
def rawWeightsF32 (pow32 : ℚ → ℚ → F32) (k : Kernel) (absNormal : Float4) : F32x3 :=
  ⟨pow32 absNormal.x k.blendExponent, pow32 absNormal.y k.blendExponent,
    pow32 absNormal.z k.blendExponent⟩

/-- Source `computeWeights`, line 146, evaluated in float32: `weightX + weightY + weightZ`. -/
def totalF32 (raw : F32x3) : F32 := (raw.x.add raw.y).add raw.z

/-- Source `computeWeights`, lines 146-149, evaluated in float32. -/
def normalizeWeightsF32 (raw : F32x3) : F32x3 :=
  let total := totalF32 raw
  ⟨raw.x.div total, raw.y.div total, raw.z.div total⟩

/-- Source `computeWeights`, lines 153-159, evaluated in float32. -/
def cullWeightsF32 (k : Kernel) (w : F32x3) : F32x3 :=
  let weightX := if w.x.lt (F32.fin k.kWeightThreshold) then F32.fin 0 else w.x
  let weightY := if w.y.lt (F32.fin k.kWeightThreshold) then F32.fin 0 else w.y
  let weightZ := if w.z.lt (F32.fin k.kWeightThreshold) then F32.fin 0 else w.z
  ⟨weightX, weightY, weightZ⟩

/-- Source `computeWeights`, evaluated in float32. -/
def computeWeightsF32 (pow32 : ℚ → ℚ → F32) (k : Kernel) (normal : Float4) : F32x3 :=
  let absNormal := normal.fabs
  if absNormal.x = 0 ∧ absNormal.y = 0 ∧ absNormal.z = 0 then ⟨F32.fin 0, F32.fin 0, F32.fin 0⟩
  else cullWeightsF32 k (normalizeWeightsF32 (rawWeightsF32 pow32 k absNormal))

/-! ## Concrete library functions for evaluating examples -/

/-- Rational stand-ins for the library functions, exact at the arguments the examples use:
`sin 0 = 0`, `cos 0 = 1` (truncated power series elsewhere), integer exponents of `pow`, and
`sqrt` of a square of a non-negative integer ratio. -/
def refIntrinsics : Intrinsics where
  sin := fun a => a - a ^ 3 / 6 + a ^ 5 / 120
  cos := fun a => 1 - a ^ 2 / 2 + a ^ 4 / 24
  sqrt := fun a => (Nat.sqrt (a.num.toNat * a.den) : ℚ) / (a.den : ℚ)
  powPos := fun x e => x ^ (⌊e⌋ : ℤ)

/-- A stand-in for the float32 library function `pow` on a base `x ≥ 0`: `1` at exponent `0`,
`0` and `+∞` at base `0` with a positive and a negative exponent, and otherwise the exact power
with the exponent `floor e`, rounded to float32 (the correctly rounded `pow` when `e` is an
integer). -/
def refPow32 (x e : ℚ) : F32 :=
  if e = 0 then F32.fin 1
  else if x = 0 then (if e < 0 then F32.inf false else F32.fin 0)
  else F32.ofRat (x ^ (⌊e⌋ : ℤ))

/-- A texture of the given bounds whose every fetch returns the same colour. -/
def constTexture (width height : ℤ) (c : Float4) : Texture where
  width := width
  height := height
  fetch := fun _ _ => c
  bilinear := fun _ _ => c

/-- A 4 x 4 texture whose every texel is opaque white. -/
def whiteTexture : Texture := constTexture 4 4 ⟨1, 1, 1, 1⟩

/-- The kernel initialised from the default parameters, as float32 stores it: the threshold of
`init` line 92 is the float32 value of the literal `0.0001f`; the other locals of the default
parameters (sine 0, cosine 1, offsets 0, scales 1) are the same in float32 and in exact
arithmetic. -/
def initDefaultF32 : Kernel :=
  { init refIntrinsics whiteTexture whiteTexture whiteTexture {} with
    kWeightThreshold := roundF32 (1 / 10000) }

/-- The reads of an example pixel: beauty alpha `1/2`, world position `(1/4, 1/2, 3/4)` with
its right and down neighbours, and the normal `(1, 0, 0)`. -/
def examplePixel : PixelInputs where
  beauty := ⟨1, 1, 1, 1 / 2⟩
  pos := ⟨1 / 4, 1 / 2, 3 / 4, 1⟩
  posRight := ⟨1 / 2, 1 / 2, 3 / 4, 1⟩
  posDown := ⟨1 / 4, 3 / 4, 3 / 4, 1⟩
  normal := ⟨1, 0, 0, 0⟩

/-- A texture of the given bounds whose fetch returns the coordinates it is called with, in
the first two channels of the colour. -/
def probeTexture (width height : ℤ) : Texture where
  width := width
  height := height
  fetch := fun x y => ⟨x, y, 0, 0⟩
  bilinear := fun x y => ⟨x, y, 0, 0⟩

/-- Rational stand-ins for `sin` and `cos` that lie on the unit circle for every argument
(`sin a = 2a / (1 + a²)`, `cos a = (1 - a²) / (1 + a²)`), with `sin` odd and `cos` even; the
other functions are those of `refIntrinsics`. -/
def circleIntrinsics : Intrinsics where
  sin := fun a => 2 * a / (1 + a ^ 2)
  cos := fun a => (1 - a ^ 2) / (1 + a ^ 2)
  sqrt := refIntrinsics.sqrt
  powPos := refIntrinsics.powPos

/-! ## Shared lemmas -/

theorem fabs_eq_zero_iff (n : Float4) :
    (n.fabs.x = 0 ∧ n.fabs.y = 0 ∧ n.fabs.z = 0) ↔ (n.x = 0 ∧ n.y = 0 ∧ n.z = 0) := by
  simp [Float4.fabs]

theorem powf_defined (I : Intrinsics) (hpow : ∀ x e, 0 < x → 0 < I.powPos x e) (x e : ℚ)
    (hx : 0 ≤ x) (h : 0 ≤ e ∨ x ≠ 0) :
    ∃ r, powf I x e = some r ∧ 0 ≤ r ∧ (x ≠ 0 → 0 < r) := by
  unfold powf
  by_cases he : e = 0
  · exact ⟨1, by simp [he], by norm_num, fun _ => by norm_num⟩
  · by_cases hx0 : x = 0
    · have hneg : ¬ e < 0 := by
        rcases h with h | h
        · exact not_lt.mpr h
        · exact absurd hx0 h
      exact ⟨0, by simp [he, hx0, hneg], le_refl _, fun hne => absurd hx0 hne⟩
    · have hpos : 0 < x := lt_of_le_of_ne hx (Ne.symm hx0)
      exact ⟨I.powPos x e, by simp [he, hx0], (hpow x e hpos).le, fun _ => hpow x e hpos⟩

theorem rawWeights_defined (I : Intrinsics) (hpow : ∀ x e, 0 < x → 0 < I.powPos x e)
    (k : Kernel) (n : Float4) (hne : n.x ≠ 0 ∨ n.y ≠ 0 ∨ n.z ≠ 0)
    (h : 0 ≤ k.blendExponent ∨ (n.x ≠ 0 ∧ n.y ≠ 0 ∧ n.z ≠ 0)) :
    ∃ raw, rawWeights I k n.fabs = some raw ∧ 0 ≤ raw.x ∧ 0 ≤ raw.y ∧ 0 ≤ raw.z ∧
      0 < raw.x + raw.y + raw.z := by
  have hx : 0 ≤ k.blendExponent ∨ |n.x| ≠ 0 := h.imp id fun h => abs_ne_zero.mpr h.1
  have hy : 0 ≤ k.blendExponent ∨ |n.y| ≠ 0 := h.imp id fun h => abs_ne_zero.mpr h.2.1
  have hz : 0 ≤ k.blendExponent ∨ |n.z| ≠ 0 := h.imp id fun h => abs_ne_zero.mpr h.2.2
  obtain ⟨rx, ex, nx, px⟩ := powf_defined I hpow |n.x| k.blendExponent (abs_nonneg _) hx
  obtain ⟨ry, ey, ny, py⟩ := powf_defined I hpow |n.y| k.blendExponent (abs_nonneg _) hy
  obtain ⟨rz, ez, nz, pz⟩ := powf_defined I hpow |n.z| k.blendExponent (abs_nonneg _) hz
  refine ⟨⟨rx, ry, rz⟩, ?_, nx, ny, nz, ?_⟩
  · simp only [rawWeights, Float4.fabs, ex, ey, ez]
  · show 0 < rx + ry + rz
    rcases hne with h1 | h1 | h1
    · have := px (abs_ne_zero.mpr h1); linarith
    · have := py (abs_ne_zero.mpr h1); linarith
    · have := pz (abs_ne_zero.mpr h1); linarith

theorem normalizeWeights_sum (raw : Float3) (h : raw.x + raw.y + raw.z ≠ 0) :
    (normalizeWeights raw).x + (normalizeWeights raw).y + (normalizeWeights raw).z = 1 := by
  simp only [normalizeWeights]
  field_simp

theorem refIntrinsics_powPos (x e : ℚ) (hx : 0 < x) : 0 < refIntrinsics.powPos x e := by
  simp only [refIntrinsics]
  exact zpow_pos hx _

/-! ## UV projection: range of the result in exact arithmetic -/

/-- In exact arithmetic, for every kernel state, every pair of world-position scalars and every
axis id, both components of the fold `v - floor v` of `computeUVs` lie in `[0, 1)`. The float32
evaluation of the same subtraction can round up to `1`. -/
theorem computeUVs_mem_unit_square (k : Kernel) (x y : ℚ) (axis : ℤ) :
    (0 ≤ (computeUVs k x y axis).x ∧ (computeUVs k x y axis).x < 1) ∧
    (0 ≤ (computeUVs k x y axis).y ∧ (computeUVs k x y axis).y < 1) := by
  simp only [computeUVs]
  refine ⟨⟨?_, ?_⟩, ?_, ?_⟩
  · exact sub_nonneg.mpr (Int.floor_le _)
  · exact sub_lt_iff_lt_add'.mpr (Int.lt_floor_add_one _)
  · exact sub_nonneg.mpr (Int.floor_le _)
  · exact sub_lt_iff_lt_add'.mpr (Int.lt_floor_add_one _)

/-! ## Weights before the threshold step -/

/-- C2, as stated, fails: with `blendExponent = -1` the normal `(1, 0, 0)` has a nonzero
component, yet `pow(0, -1)` has no finite value, so the raw weights, their sum and the
normalized weights are not defined. -/
theorem normalizedWeights_pole_counterexample :
    ((1 : ℚ) ≠ 0) ∧
    rawWeights refIntrinsics { blendExponent := -1 } (Float4.fabs ⟨1, 0, 0, 0⟩) = none ∧
    normalizedWeights refIntrinsics { blendExponent := -1 } ⟨1, 0, 0, 0⟩ = none := by
  refine ⟨by norm_num, ?_, ?_⟩
  · norm_num [rawWeights, powf, Float4.fabs]
  · norm_num [normalizedWeights, rawWeights, powf, Float4.fabs]

/-- C2, amended: for every normal with at least one nonzero component and every
`blendExponent` that is non-negative (or of any sign when no component of the normal is zero),
the three raw weights are defined, their sum (the divisor) is not zero, and the normalized
weights before the threshold step sum to exactly `1`. -/
theorem normalizedWeights_sum_eq_one (I : Intrinsics) (k : Kernel) (normal : Float4)
    (hpow : ∀ x e, 0 < x → 0 < I.powPos x e)
    (hne : normal.x ≠ 0 ∨ normal.y ≠ 0 ∨ normal.z ≠ 0)
    (hexp : 0 ≤ k.blendExponent ∨ (normal.x ≠ 0 ∧ normal.y ≠ 0 ∧ normal.z ≠ 0)) :
    ∃ raw w, rawWeights I k normal.fabs = some raw ∧ raw.x + raw.y + raw.z ≠ 0 ∧
      normalizedWeights I k normal = some w ∧
      w = ⟨raw.x / (raw.x + raw.y + raw.z), raw.y / (raw.x + raw.y + raw.z),
        raw.z / (raw.x + raw.y + raw.z)⟩ ∧
      w.x + w.y + w.z = 1 := by
  obtain ⟨raw, hraw, -, -, -, hpos⟩ := rawWeights_defined I hpow k normal hne hexp
  have hnz : ¬ (normal.fabs.x = 0 ∧ normal.fabs.y = 0 ∧ normal.fabs.z = 0) := by
    rw [fabs_eq_zero_iff]
    intro h
    rcases hne with h1 | h1 | h1
    · exact h1 h.1
    · exact h1 h.2.1
    · exact h1 h.2.2
  refine ⟨raw, normalizeWeights raw, hraw, hpos.ne', ?_, rfl, normalizeWeights_sum raw hpos.ne'⟩
  simp only [normalizedWeights, hnz, if_false, hraw, Option.map_some']

/-- Witness of `normalizedWeights_sum_eq_one`: the normal `(3, 0, -1)` with exponent `2`. -/
theorem normalizedWeights_sum_eq_one_witness :
    ∃ raw w, rawWeights refIntrinsics { blendExponent := 2 } (Float4.fabs ⟨3, 0, -1, 0⟩)
        = some raw ∧ raw.x + raw.y + raw.z ≠ 0 ∧
      normalizedWeights refIntrinsics { blendExponent := 2 } ⟨3, 0, -1, 0⟩ = some w ∧
      w = ⟨raw.x / (raw.x + raw.y + raw.z), raw.y / (raw.x + raw.y + raw.z),
        raw.z / (raw.x + raw.y + raw.z)⟩ ∧
      w.x + w.y + w.z = 1 :=
  normalizedWeights_sum_eq_one refIntrinsics { blendExponent := 2 } ⟨3, 0, -1, 0⟩
    refIntrinsics_powPos (Or.inl (by norm_num)) (Or.inl (by norm_num))

/-! ## Compositor -/

theorem process_of_weights (I : Intrinsics) (k : Kernel) (tX tY tZ : Texture) (px : PixelInputs)
    (weights : Float3) (hw : computeWeights I k px.normal = some weights) :
    process I k tX tY tZ px = some (processPremult k px.beauty
      (processOutput k weights (processSamples I k tX tY tZ px).1
        (processSamples I k tX tY tZ px).2.1 (processSamples I k tX tY tZ px).2.2)) := by
  simp only [process, hw]

theorem processOutput_blended (k : Kernel) (weights : Float3) (sX sY sZ : Float4)
    (h3 : 3 ≤ k.axisOutput) (hu : k.useTextureAlpha = false) :
    processOutput k weights sX sY sZ =
      if sX.x * weights.x + sY.x * weights.y + sZ.x * weights.z +
          (sX.y * weights.x + sY.y * weights.y + sZ.y * weights.z) +
          (sX.z * weights.x + sY.z * weights.y + sZ.z * weights.z) > 0 then
        ⟨sX.x * weights.x + sY.x * weights.y + sZ.x * weights.z,
          sX.y * weights.x + sY.y * weights.y + sZ.y * weights.z,
          sX.z * weights.x + sY.z * weights.y + sZ.z * weights.z, 1⟩
      else
        ⟨sX.x * weights.x + sY.x * weights.y + sZ.x * weights.z,
          sX.y * weights.x + sY.y * weights.y + sZ.y * weights.z,
          sX.z * weights.x + sY.z * weights.y + sZ.z * weights.z,
          sX.w * weights.x + sY.w * weights.y + sZ.w * weights.z⟩ := by
  have h0 : ¬ k.axisOutput ≤ 0 := by omega
  have h1 : ¬ k.axisOutput = 1 := by omega
  have h2 : ¬ k.axisOutput = 2 := by omega
  have h3' : k.axisOutput ≥ 3 := h3
  simp only [processOutput, h0, h1, h2, h3', hu, if_false, if_true, Float4.scale, Float4.add,
    Bool.not_false]

/-- C4, as stated, fails: in the blended branch with `useTextureAlpha` false, three opaque
black samples with weights `(0.2, 0.3, 0.5)` give summed rgb `0`, and the output alpha before
premultiplication is `1` (the weighted sum of the sample alphas), not `0`. -/
theorem processOutput_blended_alpha_counterexample :
    (processOutput { axisOutput := 3, useTextureAlpha := false } ⟨1 / 5, 3 / 10, 1 / 2⟩
        ⟨0, 0, 0, 1⟩ ⟨0, 0, 0, 1⟩ ⟨0, 0, 0, 1⟩).x +
      (processOutput { axisOutput := 3, useTextureAlpha := false } ⟨1 / 5, 3 / 10, 1 / 2⟩
        ⟨0, 0, 0, 1⟩ ⟨0, 0, 0, 1⟩ ⟨0, 0, 0, 1⟩).y +
      (processOutput { axisOutput := 3, useTextureAlpha := false } ⟨1 / 5, 3 / 10, 1 / 2⟩
        ⟨0, 0, 0, 1⟩ ⟨0, 0, 0, 1⟩ ⟨0, 0, 0, 1⟩).z ≤ 0 ∧
    (processOutput { axisOutput := 3, useTextureAlpha := false } ⟨1 / 5, 3 / 10, 1 / 2⟩
        ⟨0, 0, 0, 1⟩ ⟨0, 0, 0, 1⟩ ⟨0, 0, 0, 1⟩).w = 1 ∧
    (processOutput { axisOutput := 3, useTextureAlpha := false } ⟨1 / 5, 3 / 10, 1 / 2⟩
        ⟨0, 0, 0, 1⟩ ⟨0, 0, 0, 1⟩ ⟨0, 0, 0, 1⟩).w ≠ 0 := by
  rw [processOutput_blended _ _ _ _ _ (by norm_num) rfl]
  norm_num

/-- C4, amended: in the blended branch (`axisOutput >= 3`) with `useTextureAlpha` false,
whenever the summed output rgb channels do not exceed zero, the output alpha before
premultiplication is the weighted sum of the three sample alphas,
`sX.w * weights.x + sY.w * weights.y + sZ.w * weights.z`, for every triple of weights and every
three texture samples; it is `0` when the three sample alphas are `0`. -/
theorem processOutput_blended_alpha_kept (k : Kernel) (weights : Float3) (sX sY sZ : Float4)
    (h3 : 3 ≤ k.axisOutput) (hu : k.useTextureAlpha = false)
    (hsum : (processOutput k weights sX sY sZ).x + (processOutput k weights sX sY sZ).y +
      (processOutput k weights sX sY sZ).z ≤ 0) :
    (processOutput k weights sX sY sZ).w =
        sX.w * weights.x + sY.w * weights.y + sZ.w * weights.z ∧
      (sX.w = 0 ∧ sY.w = 0 ∧ sZ.w = 0 → (processOutput k weights sX sY sZ).w = 0) := by
  rw [processOutput_blended k weights sX sY sZ h3 hu] at hsum ⊢
  split_ifs at hsum ⊢ with hpos
  · exact absurd hsum (not_le.mpr hpos)
  · refine ⟨rfl, fun h => ?_⟩
    show sX.w * weights.x + sY.w * weights.y + sZ.w * weights.z = 0
    rw [h.1, h.2.1, h.2.2]
    ring

/-- Witness of `processOutput_blended_alpha_kept`: three black samples of alpha `1/2`. -/
theorem processOutput_blended_alpha_kept_witness :
    (processOutput { axisOutput := 3, useTextureAlpha := false } ⟨1 / 5, 3 / 10, 1 / 2⟩
        ⟨0, 0, 0, 1 / 2⟩ ⟨0, 0, 0, 1 / 2⟩ ⟨0, 0, 0, 1 / 2⟩).w =
      1 / 2 * (1 / 5) + 1 / 2 * (3 / 10) + 1 / 2 * (1 / 2) :=
  (processOutput_blended_alpha_kept { axisOutput := 3, useTextureAlpha := false }
    ⟨1 / 5, 3 / 10, 1 / 2⟩ ⟨0, 0, 0, 1 / 2⟩ ⟨0, 0, 0, 1 / 2⟩ ⟨0, 0, 0, 1 / 2⟩ (by norm_num) rfl
    (by rw [processOutput_blended _ _ _ _ _ (by norm_num) rfl]; norm_num)).1

/-- C5: in the blended branch (`axisOutput >= 3`) with `useTextureAlpha` false, the output rgb
is the weighted sum of the rgb of the three samples, and when the sum of the three output rgb
channels is greater than zero the alpha before premultiplication is exactly `1`; weights
`(0.2, 0.3, 0.5)` with three fully opaque white samples give rgb `(1, 1, 1)` and alpha `1`. -/
theorem processOutput_blended_rgb_alpha (k : Kernel) (weights : Float3) (sX sY sZ : Float4)
    (h3 : 3 ≤ k.axisOutput) (hu : k.useTextureAlpha = false) :
    (processOutput k weights sX sY sZ).x = sX.x * weights.x + sY.x * weights.y + sZ.x * weights.z ∧
    (processOutput k weights sX sY sZ).y = sX.y * weights.x + sY.y * weights.y + sZ.y * weights.z ∧
    (processOutput k weights sX sY sZ).z = sX.z * weights.x + sY.z * weights.y + sZ.z * weights.z ∧
    ((processOutput k weights sX sY sZ).x + (processOutput k weights sX sY sZ).y +
        (processOutput k weights sX sY sZ).z > 0 → (processOutput k weights sX sY sZ).w = 1) ∧
    processOutput k ⟨1 / 5, 3 / 10, 1 / 2⟩ ⟨1, 1, 1, 1⟩ ⟨1, 1, 1, 1⟩ ⟨1, 1, 1, 1⟩
      = ⟨1, 1, 1, 1⟩ := by
  rw [processOutput_blended k weights sX sY sZ h3 hu, processOutput_blended k _ _ _ _ h3 hu]
  refine ⟨?_, ?_, ?_, ?_, ?_⟩
  · split_ifs <;> rfl
  · split_ifs <;> rfl
  · split_ifs <;> rfl
  · split_ifs with hpos
    · intro _; rfl
    · intro h; exact absurd h hpos
  · norm_num

/-- Witness of `processOutput_blended_rgb_alpha`: the default selector `3`, a red, a green and
a blue sample. -/
theorem processOutput_blended_rgb_alpha_witness :
    (processOutput {} ⟨1 / 5, 3 / 10, 1 / 2⟩ ⟨1, 0, 0, 1 / 3⟩ ⟨0, 1, 0, 1 / 3⟩ ⟨0, 0, 1, 0⟩).x
        = 1 * (1 / 5) + 0 * (3 / 10) + 0 * (1 / 2) ∧
      (processOutput {} ⟨1 / 5, 3 / 10, 1 / 2⟩ ⟨1, 0, 0, 1 / 3⟩ ⟨0, 1, 0, 1 / 3⟩ ⟨0, 0, 1, 0⟩).w
        = 1 :=
  have h := processOutput_blended_rgb_alpha {} ⟨1 / 5, 3 / 10, 1 / 2⟩ ⟨1, 0, 0, 1 / 3⟩
    ⟨0, 1, 0, 1 / 3⟩ ⟨0, 0, 1, 0⟩ (by norm_num) rfl
  ⟨h.1, h.2.2.2.1 (by rw [h.1, h.2.1, h.2.2.1]; norm_num)⟩

theorem computeWeights_examplePixel (cfg : Kernel) (h : cfg.blendExponent = 1) :
    computeWeights refIntrinsics (init refIntrinsics whiteTexture whiteTexture whiteTexture cfg)
      examplePixel.normal = some ⟨1, 0, 0⟩ := by
  simp [computeWeights, rawWeights, powf, Float4.fabs, refIntrinsics, normalizeWeights,
    cullWeights, init, examplePixel, h]
  norm_num

theorem processOutput_axisX (k : Kernel) (weights : Float3) (sX sY sZ : Float4)
    (hu : k.useTextureAlpha = false) (h : k.axisOutput ≤ 0) :
    processOutput k weights sX sY sZ =
      ⟨sX.x * weights.x, sX.y * weights.x, sX.z * weights.x, weights.x⟩ := by
  have h1 : ¬ k.axisOutput = 1 := by omega
  have h2 : ¬ k.axisOutput = 2 := by omega
  have h3 : ¬ k.axisOutput ≥ 3 := by omega
  simp only [processOutput, h, h1, h2, h3, hu, if_false, if_true, Float4.scale, Bool.not_false]

theorem processOutput_axisY (k : Kernel) (weights : Float3) (sX sY sZ : Float4)
    (hu : k.useTextureAlpha = false) (h : k.axisOutput = 1) :
    processOutput k weights sX sY sZ =
      ⟨sY.x * weights.y, sY.y * weights.y, sY.z * weights.y, weights.y⟩ := by
  simp only [processOutput, h, hu, Float4.scale, Bool.not_false]
  norm_num

theorem processOutput_axisZ (k : Kernel) (weights : Float3) (sX sY sZ : Float4)
    (hu : k.useTextureAlpha = false) (h : k.axisOutput = 2) :
    processOutput k weights sX sY sZ =
      ⟨sZ.x * weights.z, sZ.y * weights.z, sZ.z * weights.z, weights.z⟩ := by
  simp only [processOutput, h, hu, Float4.scale, Bool.not_false]
  norm_num

theorem processPremult_off (k : Kernel) (beauty output : Float4) (hp : k.premult = false) :
    processPremult k beauty output = output := by
  simp only [processPremult, hp, Bool.false_eq_true, if_false]

/-- C6: in a single-axis branch (`axisOutput <= 0` selects X, `1` selects Y, `2` selects Z)
with `useTextureAlpha` false, the output before premultiplication has rgb equal to the rgb of
that axis's sample times that axis's weight and alpha exactly equal to that axis's weight,
whatever the alpha of the samples; with `premult` off this output is the pixel that `process`
writes, so for `axisOutput = 0` the written alpha is `weights.x`. -/
theorem processOutput_single_axis (I : Intrinsics) (k : Kernel) (tX tY tZ : Texture)
    (px : PixelInputs) (weights : Float3) (sX sY sZ : Float4)
    (hu : k.useTextureAlpha = false) :
    (k.axisOutput ≤ 0 → processOutput k weights sX sY sZ =
      ⟨sX.x * weights.x, sX.y * weights.x, sX.z * weights.x, weights.x⟩) ∧
    (k.axisOutput = 1 → processOutput k weights sX sY sZ =
      ⟨sY.x * weights.y, sY.y * weights.y, sY.z * weights.y, weights.y⟩) ∧
    (k.axisOutput = 2 → processOutput k weights sX sY sZ =
      ⟨sZ.x * weights.z, sZ.y * weights.z, sZ.z * weights.z, weights.z⟩) ∧
    (k.axisOutput ≤ 2 → ∀ a b c : ℚ,
      processOutput k weights { sX with w := a } { sY with w := b } { sZ with w := c } =
        processOutput k weights sX sY sZ) ∧
    (k.premult = false → ∀ beauty : Float4,
      processPremult k beauty (processOutput k weights sX sY sZ) =
        processOutput k weights sX sY sZ) ∧
    (k.premult = false → computeWeights I k px.normal = some weights →
      process I k tX tY tZ px = some (processOutput k weights (processSamples I k tX tY tZ px).1
        (processSamples I k tX tY tZ px).2.1 (processSamples I k tX tY tZ px).2.2)) ∧
    (k.premult = false → k.axisOutput = 0 → computeWeights I k px.normal = some weights →
      ∃ out, process I k tX tY tZ px = some out ∧ out.w = weights.x) := by
  refine ⟨processOutput_axisX k weights sX sY sZ hu, processOutput_axisY k weights sX sY sZ hu,
    processOutput_axisZ k weights sX sY sZ hu, ?_, ?_, ?_, ?_⟩
  · intro h a b c
    have hcases : k.axisOutput ≤ 0 ∨ k.axisOutput = 1 ∨ k.axisOutput = 2 := by omega
    rcases hcases with h0 | h1 | h2
    · rw [processOutput_axisX k weights _ _ _ hu h0, processOutput_axisX k weights _ _ _ hu h0]
    · rw [processOutput_axisY k weights _ _ _ hu h1, processOutput_axisY k weights _ _ _ hu h1]
    · rw [processOutput_axisZ k weights _ _ _ hu h2, processOutput_axisZ k weights _ _ _ hu h2]
  · intro hp beauty
    exact processPremult_off k beauty _ hp
  · intro hp hw
    rw [process_of_weights I k tX tY tZ px weights hw, processPremult_off k _ _ hp]
  · intro hp h0 hw
    refine ⟨_, process_of_weights I k tX tY tZ px weights hw, ?_⟩
    rw [processPremult_off k _ _ hp, processOutput_axisX k weights _ _ _ hu (le_of_eq h0)]

/-- Witness of `processOutput_single_axis`: the X-only selector on the example pixel, whose
weights are `(1, 0, 0)`; the written alpha is the X weight `1`. -/
theorem processOutput_single_axis_witness :
    processOutput { axisOutput := 0, premult := false } ⟨1, 0, 0⟩ ⟨1 / 2, 1 / 3, 1 / 4, 1 / 5⟩
        ⟨1, 1, 1, 1⟩ ⟨1, 1, 1, 1⟩ = ⟨1 / 2 * 1, 1 / 3 * 1, 1 / 4 * 1, 1⟩ ∧
      ∃ out, process refIntrinsics
          (init refIntrinsics whiteTexture whiteTexture whiteTexture
            { axisOutput := 0, premult := false })
          whiteTexture whiteTexture whiteTexture examplePixel = some out ∧ out.w = 1 :=
  ⟨(processOutput_single_axis refIntrinsics { axisOutput := 0, premult := false } whiteTexture
      whiteTexture whiteTexture examplePixel ⟨1, 0, 0⟩ ⟨1 / 2, 1 / 3, 1 / 4, 1 / 5⟩ ⟨1, 1, 1, 1⟩
      ⟨1, 1, 1, 1⟩ rfl).1 (le_refl _),
    (processOutput_single_axis refIntrinsics
      (init refIntrinsics whiteTexture whiteTexture whiteTexture
        { axisOutput := 0, premult := false })
      whiteTexture whiteTexture whiteTexture examplePixel ⟨1, 0, 0⟩ ⟨1, 1, 1, 1⟩ ⟨1, 1, 1, 1⟩
      ⟨1, 1, 1, 1⟩ rfl).2.2.2.2.2.2 rfl rfl (computeWeights_examplePixel _ rfl)⟩

/-! ## Premultiplication -/

theorem processPremult_on (k : Kernel) (beauty output : Float4) (hp : k.premult = true)
    (hu : k.useTextureAlpha = false) :
    processPremult k beauty output =
      ⟨output.x * beauty.w, output.y * beauty.w, output.z * beauty.w, output.w * beauty.w⟩ := by
  simp only [processPremult, hp, hu, if_true, Bool.false_eq_true, if_false, Float4.scale]

theorem processPremult_textureAlpha (k : Kernel) (beauty output : Float4) (hp : k.premult = true)
    (hu : k.useTextureAlpha = true) :
    processPremult k beauty output =
      ⟨output.x * beauty.w * (output.w * beauty.w), output.y * beauty.w * (output.w * beauty.w),
        output.z * beauty.w * (output.w * beauty.w), output.w * beauty.w⟩ := by
  simp only [processPremult, hp, hu, if_true, Float4.scale]

/-- C7: when `premult` is set and `useTextureAlpha` is false, the pixel written by `process`
is the output before premultiplication with all four channels multiplied by the alpha of the
beauty pixel, so the output `(1, 1, 1, 1)` with beauty alpha `0.5` gives
`(0.5, 0.5, 0.5, 0.5)`; when `premult` is not set the written pixel is the output before
premultiplication, unchanged. -/
theorem processPremult_beauty_alpha (I : Intrinsics) (k : Kernel) (tX tY tZ : Texture)
    (px : PixelInputs) (weights : Float3) (beauty output : Float4)
    (hw : computeWeights I k px.normal = some weights) :
    process I k tX tY tZ px = some (processPremult k px.beauty
      (processOutput k weights (processSamples I k tX tY tZ px).1
        (processSamples I k tX tY tZ px).2.1 (processSamples I k tX tY tZ px).2.2)) ∧
    (k.premult = true → k.useTextureAlpha = false → processPremult k beauty output =
      ⟨output.x * beauty.w, output.y * beauty.w, output.z * beauty.w, output.w * beauty.w⟩) ∧
    (k.premult = false → processPremult k beauty output = output) ∧
    processPremult { premult := true, useTextureAlpha := false }
      ⟨beauty.x, beauty.y, beauty.z, 1 / 2⟩ ⟨1, 1, 1, 1⟩ = ⟨1 / 2, 1 / 2, 1 / 2, 1 / 2⟩ := by
  refine ⟨process_of_weights I k tX tY tZ px weights hw, processPremult_on k beauty output,
    processPremult_off k beauty output, ?_⟩
  rw [processPremult_on _ _ _ rfl rfl]
  norm_num

/-- Witness of `processPremult_beauty_alpha`: the default flags (`premult` set,
`useTextureAlpha` false) on the example pixel, and a colour scaled by beauty alpha `1/2`. -/
theorem processPremult_beauty_alpha_witness :
    process refIntrinsics (init refIntrinsics whiteTexture whiteTexture whiteTexture {})
        whiteTexture whiteTexture whiteTexture examplePixel =
      some (processPremult (init refIntrinsics whiteTexture whiteTexture whiteTexture {})
        examplePixel.beauty
        (processOutput (init refIntrinsics whiteTexture whiteTexture whiteTexture {}) ⟨1, 0, 0⟩
          (processSamples refIntrinsics
            (init refIntrinsics whiteTexture whiteTexture whiteTexture {})
            whiteTexture whiteTexture whiteTexture examplePixel).1
          (processSamples refIntrinsics
            (init refIntrinsics whiteTexture whiteTexture whiteTexture {})
            whiteTexture whiteTexture whiteTexture examplePixel).2.1
          (processSamples refIntrinsics
            (init refIntrinsics whiteTexture whiteTexture whiteTexture {})
            whiteTexture whiteTexture whiteTexture examplePixel).2.2)) ∧
      processPremult (init refIntrinsics whiteTexture whiteTexture whiteTexture {})
        ⟨0, 0, 0, 1 / 2⟩ ⟨1, 1 / 2, 1 / 4, 1⟩ =
          ⟨1 * (1 / 2), 1 / 2 * (1 / 2), 1 / 4 * (1 / 2), 1 * (1 / 2)⟩ :=
  have h := processPremult_beauty_alpha refIntrinsics
    (init refIntrinsics whiteTexture whiteTexture whiteTexture {}) whiteTexture whiteTexture
    whiteTexture examplePixel ⟨1, 0, 0⟩ ⟨0, 0, 0, 1 / 2⟩ ⟨1, 1 / 2, 1 / 4, 1⟩
    (computeWeights_examplePixel _ rfl)
  ⟨h.1, h.2.1 rfl rfl⟩

/-- C8, as stated, fails: with both flags set, the output `(1, 1, 1, 1)` before
premultiplication and beauty alpha `0.5` give `a' = 0.5` and the pixel
`(0.25, 0.25, 0.25, 0.5)`: the alpha is `a'`, not `a' * a' = 0.25`. -/
theorem processPremult_textureAlpha_counterexample :
    processPremult { premult := true, useTextureAlpha := true } ⟨0, 0, 0, 1 / 2⟩ ⟨1, 1, 1, 1⟩
        = ⟨1 / 4, 1 / 4, 1 / 4, 1 / 2⟩ ∧
      (processPremult { premult := true, useTextureAlpha := true } ⟨0, 0, 0, 1 / 2⟩
        ⟨1, 1, 1, 1⟩).w ≠ (1 * (1 / 2)) * (1 * (1 / 2)) := by
  rw [processPremult_textureAlpha _ _ _ rfl rfl]
  norm_num

/-- C8, amended: when both `premult` and `useTextureAlpha` are set, the beauty-scaled output
alpha `a' = output.w * beauty.w` multiplies the rgb channels a second time and the alpha
channel is set back to `a'`: the written pixel has rgb equal to the rgb before premultiplication
times the beauty alpha times `a'`, and alpha equal to `a'`. -/
theorem processPremult_second_multiplication (I : Intrinsics) (k : Kernel) (tX tY tZ : Texture)
    (px : PixelInputs) (weights : Float3) (beauty output : Float4)
    (hp : k.premult = true) (hu : k.useTextureAlpha = true)
    (hw : computeWeights I k px.normal = some weights) :
    process I k tX tY tZ px = some (processPremult k px.beauty
      (processOutput k weights (processSamples I k tX tY tZ px).1
        (processSamples I k tX tY tZ px).2.1 (processSamples I k tX tY tZ px).2.2)) ∧
    processPremult k beauty output =
      ⟨output.x * beauty.w * (output.w * beauty.w), output.y * beauty.w * (output.w * beauty.w),
        output.z * beauty.w * (output.w * beauty.w), output.w * beauty.w⟩ :=
  ⟨process_of_weights I k tX tY tZ px weights hw, processPremult_textureAlpha k beauty output hp hu⟩

/-- Witness of `processPremult_second_multiplication`: both flags set on the example pixel. -/
theorem processPremult_second_multiplication_witness :
    processPremult
        (init refIntrinsics whiteTexture whiteTexture whiteTexture { useTextureAlpha := true })
        ⟨0, 0, 0, 1 / 2⟩ ⟨1, 1 / 2, 1 / 4, 1 / 3⟩ =
      ⟨1 * (1 / 2) * (1 / 3 * (1 / 2)), 1 / 2 * (1 / 2) * (1 / 3 * (1 / 2)),
        1 / 4 * (1 / 2) * (1 / 3 * (1 / 2)), 1 / 3 * (1 / 2)⟩ :=
  (processPremult_second_multiplication refIntrinsics
    (init refIntrinsics whiteTexture whiteTexture whiteTexture { useTextureAlpha := true })
    whiteTexture whiteTexture whiteTexture examplePixel ⟨1, 0, 0⟩ ⟨0, 0, 0, 1 / 2⟩
    ⟨1, 1 / 2, 1 / 4, 1 / 3⟩ rfl rfl (computeWeights_examplePixel _ rfl)).2

/-! ## Setup: what `init` checks -/

/-- C9, as stated, fails: `init` accepts the configuration with `anisotropicSampleCount = 1`
and anisotropic filtering selected; the initialised kernel keeps the count `1`, the divisor
`anisotropicSampleCount - 1` of the step is `0`, and `process` is evaluated on a pixel. -/
theorem init_sampleCount_counterexample :
    (init refIntrinsics whiteTexture whiteTexture whiteTexture
        { anisotropicSampleCount := 1, filterMode := 2 }).anisotropicSampleCount = 1 ∧
      (init refIntrinsics whiteTexture whiteTexture whiteTexture
        { anisotropicSampleCount := 1, filterMode := 2 }).filterMode = 2 ∧
      ((((init refIntrinsics whiteTexture whiteTexture whiteTexture
        { anisotropicSampleCount := 1, filterMode := 2 }).anisotropicSampleCount - 1 : ℤ) : ℚ)
          = 0) ∧
      (process refIntrinsics
        (init refIntrinsics whiteTexture whiteTexture whiteTexture
          { anisotropicSampleCount := 1, filterMode := 2 })
        whiteTexture whiteTexture whiteTexture examplePixel).isSome = true := by
  refine ⟨rfl, by decide, by norm_num [init], ?_⟩
  rw [process_of_weights _ _ _ _ _ _ _ (computeWeights_examplePixel _ rfl)]
  rfl

/-- C9, amended: `init` does not validate `anisotropicSampleCount`: it accepts every
configuration and stores the count unchanged. The anisotropic step is
`maxDerivative / (anisotropicSampleCount - 1)`; its divisor is zero exactly when the configured
count is `1`, and is not zero for every count of `2` or more. -/
theorem init_keeps_sampleCount (I : Intrinsics) (tX tY tZ : Texture) (k : Kernel) :
    (init I tX tY tZ k).anisotropicSampleCount = k.anisotropicSampleCount ∧
    (∀ maxDerivative : ℚ, anisoStep (init I tX tY tZ k) maxDerivative =
      maxDerivative / ((k.anisotropicSampleCount - 1 : ℤ) : ℚ)) ∧
    ((((init I tX tY tZ k).anisotropicSampleCount - 1 : ℤ) : ℚ) = 0 ↔
      k.anisotropicSampleCount = 1) ∧
    (2 ≤ k.anisotropicSampleCount →
      (((init I tX tY tZ k).anisotropicSampleCount - 1 : ℤ) : ℚ) ≠ 0) := by
  refine ⟨rfl, fun _ => rfl, ?_, ?_⟩
  · show (((k.anisotropicSampleCount - 1 : ℤ) : ℚ) = 0) ↔ _
    rw [Int.cast_eq_zero]
    omega
  · intro h
    show ((k.anisotropicSampleCount - 1 : ℤ) : ℚ) ≠ 0
    rw [Ne, Int.cast_eq_zero]
    omega

/-- Witness of `init_keeps_sampleCount`: the default count `8`. -/
theorem init_keeps_sampleCount_witness :
    (((init refIntrinsics whiteTexture whiteTexture whiteTexture {}).anisotropicSampleCount - 1
      : ℤ) : ℚ) ≠ 0 :=
  (init_keeps_sampleCount refIntrinsics whiteTexture whiteTexture whiteTexture {}).2.2.2
    (by decide)

/-- C10, as stated, fails: `init` accepts an X texture of width `0`; the initialised kernel
caches the size `(4, 0)`, so the second component of the X offset is divided by `0`, and
`process` is evaluated on a pixel. -/
theorem init_textureSize_counterexample :
    (init refIntrinsics (constTexture 0 4 Float4.zero) whiteTexture whiteTexture {}).textureX_Size
        = ⟨4, 0⟩ ∧
      (init refIntrinsics (constTexture 0 4 Float4.zero) whiteTexture whiteTexture {}).offsetX
        = (Float2.add ⟨0, 0⟩ ⟨0, 0⟩).divInt2 ⟨4, 0⟩ ∧
      (process refIntrinsics
        (init refIntrinsics (constTexture 0 4 Float4.zero) whiteTexture whiteTexture {})
        (constTexture 0 4 Float4.zero) whiteTexture whiteTexture examplePixel).isSome = true := by
  refine ⟨rfl, rfl, ?_⟩
  have hw : computeWeights refIntrinsics
      (init refIntrinsics (constTexture 0 4 Float4.zero) whiteTexture whiteTexture {})
      examplePixel.normal = some ⟨1, 0, 0⟩ := computeWeights_examplePixel {} rfl
  rw [process_of_weights _ _ _ _ _ _ _ hw]
  rfl

/-- C10, amended: `init` does not validate the texture dimensions: it accepts every
configuration, caches for each axis the size `(bounds.height(), bounds.width())` and divides
(axis offset + global offset) component-wise by that cached size. Both divisors of an axis are
not zero exactly when that texture has nonzero width and nonzero height. -/
theorem init_keeps_textureSize (I : Intrinsics) (tX tY tZ : Texture) (k : Kernel) :
    ((init I tX tY tZ k).textureX_Size = ⟨tX.height, tX.width⟩ ∧
      (init I tX tY tZ k).textureY_Size = ⟨tY.height, tY.width⟩ ∧
      (init I tX tY tZ k).textureZ_Size = ⟨tZ.height, tZ.width⟩) ∧
    ((init I tX tY tZ k).offsetX =
        (k.offsetX.add k.offsetGlobal).divInt2 (init I tX tY tZ k).textureX_Size ∧
      (init I tX tY tZ k).offsetY =
        (k.offsetY.add k.offsetGlobal).divInt2 (init I tX tY tZ k).textureY_Size ∧
      (init I tX tY tZ k).offsetZ =
        (k.offsetZ.add k.offsetGlobal).divInt2 (init I tX tY tZ k).textureZ_Size) ∧
    ((((init I tX tY tZ k).textureX_Size.x : ℚ) ≠ 0 ∧ ((init I tX tY tZ k).textureX_Size.y : ℚ) ≠ 0
        ↔ tX.width ≠ 0 ∧ tX.height ≠ 0) ∧
      (((init I tX tY tZ k).textureY_Size.x : ℚ) ≠ 0 ∧ ((init I tX tY tZ k).textureY_Size.y : ℚ) ≠ 0
        ↔ tY.width ≠ 0 ∧ tY.height ≠ 0) ∧
      (((init I tX tY tZ k).textureZ_Size.x : ℚ) ≠ 0 ∧ ((init I tX tY tZ k).textureZ_Size.y : ℚ) ≠ 0
        ↔ tZ.width ≠ 0 ∧ tZ.height ≠ 0)) := by
  refine ⟨⟨rfl, rfl, rfl⟩, ⟨rfl, rfl, rfl⟩, ?_, ?_, ?_⟩
  · show ((tX.height : ℚ) ≠ 0 ∧ (tX.width : ℚ) ≠ 0) ↔ _
    simp only [Ne, Int.cast_eq_zero]
    tauto
  · show ((tY.height : ℚ) ≠ 0 ∧ (tY.width : ℚ) ≠ 0) ↔ _
    simp only [Ne, Int.cast_eq_zero]
    tauto
  · show ((tZ.height : ℚ) ≠ 0 ∧ (tZ.width : ℚ) ≠ 0) ↔ _
    simp only [Ne, Int.cast_eq_zero]
    tauto

/-! ## Setup: the cached texture size -/

/-- C11: evaluation of `init` on a non-square texture. The stored scale of each axis is the
axis scale times the global scale, but the stored offset divides the first (u) component by
the texture height and the second (v) component by the texture width: for an X texture of
width 8 and height 4 and the axis offset `(8, 4)` it is `(2, 1/2)`, not `(8/8, 4/4) = (1, 1)`. -/
theorem init_offset_divided_by_swapped_size (I : Intrinsics) (tX tY tZ : Texture) (k : Kernel) :
    ((init I tX tY tZ k).scaleX = k.scaleX * k.scaleGlobal ∧
      (init I tX tY tZ k).scaleY = k.scaleY * k.scaleGlobal ∧
      (init I tX tY tZ k).scaleZ = k.scaleZ * k.scaleGlobal) ∧
    ((init I tX tY tZ k).offsetX = ⟨(k.offsetX.x + k.offsetGlobal.x) / (tX.height : ℚ),
        (k.offsetX.y + k.offsetGlobal.y) / (tX.width : ℚ)⟩ ∧
      (init I tX tY tZ k).offsetY = ⟨(k.offsetY.x + k.offsetGlobal.x) / (tY.height : ℚ),
        (k.offsetY.y + k.offsetGlobal.y) / (tY.width : ℚ)⟩ ∧
      (init I tX tY tZ k).offsetZ = ⟨(k.offsetZ.x + k.offsetGlobal.x) / (tZ.height : ℚ),
        (k.offsetZ.y + k.offsetGlobal.y) / (tZ.width : ℚ)⟩) ∧
    ((init refIntrinsics (constTexture 8 4 Float4.zero) whiteTexture whiteTexture
        { offsetX := ⟨8, 4⟩ }).offsetX = ⟨2, 1 / 2⟩ ∧
      (init refIntrinsics (constTexture 8 4 Float4.zero) whiteTexture whiteTexture
        { offsetX := ⟨8, 4⟩ }).offsetX ≠ ⟨(8 + 0) / 8, (4 + 0) / 4⟩) := by
  refine ⟨⟨rfl, rfl, rfl⟩, ⟨rfl, rfl, rfl⟩, ?_, ?_⟩
  · norm_num [init, constTexture, Float2.add, Float2.divInt2]
  · norm_num [init, constTexture, Float2.add, Float2.divInt2]

theorem computeWeights_unit_x (k : Kernel) (he : k.blendExponent = 1)
    (ht : k.kWeightThreshold = 1 / 10000) :
    computeWeights refIntrinsics k ⟨1, 0, 0, 0⟩ = some ⟨1, 0, 0⟩ := by
  simp [computeWeights, rawWeights, powf, Float4.fabs, refIntrinsics, normalizeWeights,
    cullWeights, he, ht]
  norm_num

theorem sampleLinear_axisX (k : Kernel) (tX tY tZ : Texture) (uv : Float2) :
    sampleLinear k tX tY tZ uv 0 =
      tX.fetch (uv.x * (k.textureX_Size.x : ℚ)) (uv.y * (k.textureX_Size.y : ℚ)) := by
  simp [sampleLinear, Float2.mulInt2]

theorem sampleLinear_axisY (k : Kernel) (tX tY tZ : Texture) (uv : Float2) :
    sampleLinear k tX tY tZ uv 1 =
      tY.fetch (uv.x * (k.textureY_Size.x : ℚ)) (uv.y * (k.textureY_Size.y : ℚ)) := by
  simp [sampleLinear, Float2.mulInt2]

theorem sampleLinear_axisZ (k : Kernel) (tX tY tZ : Texture) (uv : Float2) :
    sampleLinear k tX tY tZ uv 2 =
      tZ.fetch (uv.x * (k.textureZ_Size.x : ℚ)) (uv.y * (k.textureZ_Size.y : ℚ)) := by
  simp [sampleLinear, Float2.mulInt2]

/-- C12: evaluation of `sampleLinear` on a non-square texture. After `init` the direct sampler
of axis X fetches at `(u * height, v * width)`; for an X texture of width 4 and height 8 and
the UV `(3/4, 0)` of `[0, 1) x [0, 1)` it fetches at `x = 6`, which is not below the width 4,
and the pixel written by `process` for the world position `(0, 3/4, 0)` carries that
coordinate. -/
theorem sampleLinear_fetch_out_of_range (I : Intrinsics) (tX tY tZ : Texture) (k : Kernel)
    (uv : Float2) :
    sampleLinear (init I tX tY tZ k) tX tY tZ uv 0 =
      tX.fetch (uv.x * (tX.height : ℚ)) (uv.y * (tX.width : ℚ)) ∧
    sampleLinear (init refIntrinsics (probeTexture 4 8) whiteTexture whiteTexture {})
      (probeTexture 4 8) whiteTexture whiteTexture ⟨3 / 4, 0⟩ 0 = ⟨6, 0, 0, 0⟩ ∧
    ¬ ((6 : ℚ) < ((probeTexture 4 8).width : ℚ)) ∧
    process refIntrinsics
      (init refIntrinsics (probeTexture 4 8) whiteTexture whiteTexture
        { axisOutput := 0, premult := false })
      (probeTexture 4 8) whiteTexture whiteTexture
      { beauty := ⟨0, 0, 0, 1⟩, pos := ⟨0, 3 / 4, 0, 1⟩, posRight := ⟨0, 3 / 4, 0, 1⟩,
        posDown := ⟨0, 3 / 4, 0, 1⟩, normal := ⟨1, 0, 0, 0⟩ } = some ⟨6, 0, 0, 1⟩ := by
  refine ⟨?_, ?_, ?_, ?_⟩
  · rw [sampleLinear_axisX]; rfl
  · rw [sampleLinear_axisX]
    norm_num [init, probeTexture]
  · norm_num [probeTexture]
  · have hw : computeWeights refIntrinsics
        (init refIntrinsics (probeTexture 4 8) whiteTexture whiteTexture
          { axisOutput := 0, premult := false })
        (⟨1, 0, 0, 0⟩ : Float4) = some ⟨1, 0, 0⟩ := computeWeights_unit_x _ rfl rfl
    rw [process_of_weights _ _ _ _ _ _ ⟨1, 0, 0⟩ hw, processPremult_off _ _ _ rfl,
      processOutput_axisX _ _ _ _ _ rfl (by decide)]
    have hs : (processSamples refIntrinsics
        (init refIntrinsics (probeTexture 4 8) whiteTexture whiteTexture
          { axisOutput := 0, premult := false })
        (probeTexture 4 8) whiteTexture whiteTexture
        { beauty := ⟨0, 0, 0, 1⟩, pos := ⟨0, 3 / 4, 0, 1⟩, posRight := ⟨0, 3 / 4, 0, 1⟩,
          posDown := ⟨0, 3 / 4, 0, 1⟩, normal := ⟨1, 0, 0, 0⟩ }).1 = ⟨6, 0, 0, 0⟩ := by
      norm_num [processSamples, sampleLinear, Float2.mulInt2, computeUVs, axisLocals,
        Float2.sub, init, probeTexture, refIntrinsics, angleToRad, Float2.add, Float2.divInt2,
        whiteTexture, constTexture]
    rw [hs]
    norm_num

/-! ## Wrapped difference -/

/-- C13: for all UV scalars `a`, `b` in `[0, 1)`, `wrappedDiff a b` differs from `a - b` by one
of the integers `-1`, `0`, `1`, its absolute value is at most `1/2`, and no `a - b + k` with an
integer `k` has a smaller absolute value; `wrappedDiff 0.9 0.1 = -0.2`. -/
theorem wrappedDiff_shortest (a b : ℚ) (ha : 0 ≤ a ∧ a < 1) (hb : 0 ≤ b ∧ b < 1) :
    (wrappedDiff a b = a - b + (-1 : ℤ) ∨ wrappedDiff a b = a - b + (0 : ℤ) ∨
      wrappedDiff a b = a - b + (1 : ℤ)) ∧
    |wrappedDiff a b| ≤ 1 / 2 ∧
    (∀ k : ℤ, |wrappedDiff a b| ≤ |a - b + k|) ∧
    wrappedDiff (9 / 10) (1 / 10) = -(1 / 5) := by
  obtain ⟨ha0, ha1⟩ := ha
  obtain ⟨hb0, hb1⟩ := hb
  have key : ∃ m : ℤ, (m = -1 ∨ m = 0 ∨ m = 1) ∧ wrappedDiff a b = a - b + m ∧
      |wrappedDiff a b| ≤ 1 / 2 := by
    simp only [wrappedDiff]
    by_cases h1 : a - b > 1 / 2
    · refine ⟨-1, Or.inl rfl, ?_, ?_⟩
      · rw [if_pos h1, if_neg (by linarith)]; push_cast; ring
      · rw [if_pos h1, if_neg (by linarith), abs_le]; constructor <;> linarith
    · by_cases h2 : a - b < -(1 / 2)
      · refine ⟨1, Or.inr (Or.inr rfl), ?_, ?_⟩
        · rw [if_neg h1, if_pos h2]; push_cast; ring
        · rw [if_neg h1, if_pos h2, abs_le]; constructor <;> linarith
      · refine ⟨0, Or.inr (Or.inl rfl), ?_, ?_⟩
        · rw [if_neg h1, if_neg h2]; push_cast; ring
        · rw [if_neg h1, if_neg h2, abs_le]; constructor <;> linarith
  obtain ⟨m, hm, hd, habs⟩ := key
  refine ⟨?_, habs, ?_, by norm_num [wrappedDiff]⟩
  · rcases hm with h | h | h <;> subst h
    · exact Or.inl hd
    · exact Or.inr (Or.inl hd)
    · exact Or.inr (Or.inr hd)
  · intro k
    have hk : a - b + (k : ℚ) = wrappedDiff a b + ((k - m : ℤ) : ℚ) := by
      rw [hd]; push_cast; ring
    rw [hk]
    obtain ⟨hlo, hhi⟩ := abs_le.mp habs
    rcases lt_trichotomy (k - m) 0 with hj | hj | hj
    · have hj1 : ((k - m : ℤ) : ℚ) ≤ -1 := by exact_mod_cast (by omega : k - m ≤ -1)
      rw [abs_of_nonpos (by linarith : wrappedDiff a b + ((k - m : ℤ) : ℚ) ≤ 0)]
      exact le_trans habs (by linarith)
    · rw [hj]; simp
    · have hj1 : (1 : ℚ) ≤ ((k - m : ℤ) : ℚ) := by exact_mod_cast (by omega : 1 ≤ k - m)
      rw [abs_of_nonneg (by linarith : 0 ≤ wrappedDiff a b + ((k - m : ℤ) : ℚ))]
      exact le_trans habs (by linarith)

/-- Witness of `wrappedDiff_shortest`: the pair `(1/8, 7/8)` across the seam. -/
theorem wrappedDiff_shortest_witness :
    (wrappedDiff (1 / 8) (7 / 8) = 1 / 8 - 7 / 8 + (-1 : ℤ) ∨
      wrappedDiff (1 / 8) (7 / 8) = 1 / 8 - 7 / 8 + (0 : ℤ) ∨
      wrappedDiff (1 / 8) (7 / 8) = 1 / 8 - 7 / 8 + (1 : ℤ)) ∧
    |wrappedDiff (1 / 8) (7 / 8)| ≤ 1 / 2 :=
  have h := wrappedDiff_shortest (1 / 8) (7 / 8) ⟨by norm_num, by norm_num⟩
    ⟨by norm_num, by norm_num⟩
  ⟨h.1, h.2.1⟩

/-! ## UV projection with the identity transform -/

theorem axisLocals_eq (k : Kernel) (axis : ℤ) :
    axisLocals k axis =
      if min (max axis 0) 2 = 0 then ⟨k.scaleX, k.offsetX, k.rotateX_Cos, k.rotateX_Sin⟩
      else if min (max axis 0) 2 = 1 then ⟨k.scaleY, k.offsetY, k.rotateY_Cos, k.rotateY_Sin⟩
      else ⟨k.scaleZ, k.offsetZ, k.rotateZ_Cos, k.rotateZ_Sin⟩ := by
  have h : min (max axis 0) 2 = 0 ∨ min (max axis 0) 2 = 1 ∨ min (max axis 0) 2 = 2 := by
    omega
  simp only [axisLocals]
  rcases h with h | h | h <;> rw [h] <;> norm_num

/-- C14: with zero rotation (sine `0`, cosine `1`), zero offset and combined scale `1` on the
three axes, `computeUVs x y axis = (x - floor x, y - floor y)` for every `x`, `y` and axis id,
so the result is unchanged when `x` or `y` is shifted by an integer; the projection of axis Z
at the world position `(2.3, -1.7)` is `(0.3, 0.3)`. -/
theorem computeUVs_identity_transform (k : Kernel) (x y : ℚ) (axis : ℤ)
    (hX : k.scaleX = 1 ∧ k.offsetX = ⟨0, 0⟩ ∧ k.rotateX_Cos = 1 ∧ k.rotateX_Sin = 0)
    (hY : k.scaleY = 1 ∧ k.offsetY = ⟨0, 0⟩ ∧ k.rotateY_Cos = 1 ∧ k.rotateY_Sin = 0)
    (hZ : k.scaleZ = 1 ∧ k.offsetZ = ⟨0, 0⟩ ∧ k.rotateZ_Cos = 1 ∧ k.rotateZ_Sin = 0) :
    computeUVs k x y axis = ⟨x - (⌊x⌋ : ℤ), y - (⌊y⌋ : ℤ)⟩ ∧
    (∀ m n : ℤ, computeUVs k (x + m) (y + n) axis = computeUVs k x y axis) ∧
    computeUVs k (23 / 10) (-(17 / 10)) 2 = ⟨3 / 10, 3 / 10⟩ := by
  have hloc : ∀ a : ℤ, axisLocals k a = ⟨1, ⟨0, 0⟩, 1, 0⟩ := by
    intro a
    rw [axisLocals_eq, hX.1, hX.2.1, hX.2.2.1, hX.2.2.2, hY.1, hY.2.1, hY.2.2.1, hY.2.2.2,
      hZ.1, hZ.2.1, hZ.2.2.1, hZ.2.2.2]
    split_ifs <;> rfl
  have hgen : ∀ (u v : ℚ) (a : ℤ), computeUVs k u v a = ⟨u - (⌊u⌋ : ℤ), v - (⌊v⌋ : ℤ)⟩ := by
    intro u v a
    simp only [computeUVs, hloc, Float2.sub, mul_one, sub_zero, mul_zero, add_zero, zero_add]
  refine ⟨hgen x y axis, ?_, ?_⟩
  · intro m n
    rw [hgen, hgen, Int.floor_add_int, Int.floor_add_int]
    push_cast
    congr 1 <;> ring
  · rw [hgen]
    norm_num

/-- Witness of `computeUVs_identity_transform`: the kernel initialised from the default
parameters, at the world position `(5/2, -1/4)` on axis X. -/
theorem computeUVs_identity_transform_witness :
    computeUVs (init refIntrinsics whiteTexture whiteTexture whiteTexture {}) (5 / 2) (-(1 / 4)) 0
      = ⟨5 / 2 - (⌊(5 / 2 : ℚ)⌋ : ℤ), -(1 / 4) - (⌊(-(1 / 4) : ℚ)⌋ : ℤ)⟩ :=
  (computeUVs_identity_transform (init refIntrinsics whiteTexture whiteTexture whiteTexture {})
    (5 / 2) (-(1 / 4)) 0
    (by norm_num [init, refIntrinsics, angleToRad, Float2.add, Float2.divInt2, whiteTexture,
      constTexture])
    (by norm_num [init, refIntrinsics, angleToRad, Float2.add, Float2.divInt2, whiteTexture,
      constTexture])
    (by norm_num [init, refIntrinsics, angleToRad, Float2.add, Float2.divInt2, whiteTexture,
      constTexture])).1

/-! ## Rotation and its inverse -/

theorem angleToRad_neg (t : ℚ) : angleToRad (-t) = -angleToRad t := by
  simp only [angleToRad]
  ring

theorem rotateUV_back (v : Float2) (c s : ℚ) (h : c ^ 2 + s ^ 2 = 1) :
    rotateUV (rotateUV v c s) c (-s) = v := by
  obtain ⟨x, y⟩ := v
  simp only [rotateUV]
  congr 1
  · have : (x * c - y * s) * c - (x * s + y * c) * -s = x * (c ^ 2 + s ^ 2) := by ring
    rw [this, h, mul_one]
  · have : (x * c - y * s) * -s + (x * s + y * c) * c = y * (c ^ 2 + s ^ 2) := by ring
    rw [this, h, mul_one]

theorem circleIntrinsics_unit (a : ℚ) :
    circleIntrinsics.cos a ^ 2 + circleIntrinsics.sin a ^ 2 = 1 := by
  have h : (1 + a ^ 2 : ℚ) ≠ 0 := by positivity
  simp only [circleIntrinsics]
  field_simp
  ring

/-- C15: the rotation applied by `computeUVs`, `(x, y) -> (x cos t - y sin t, x sin t + y cos t)`
with the sine and cosine that `init` stores for the angle `t` (in degrees), is undone by the
same rotation with the angle `-t`: for every vector, rotating by `t` and then by `-t`, without
the fold into `[0, 1)`, returns the vector. The sine and cosine are those of a point of the
unit circle, the sine is odd and the cosine is even. -/
theorem rotateUV_then_inverse (I : Intrinsics) (t : ℚ) (v : Float2)
    (hunit : I.cos (angleToRad t) ^ 2 + I.sin (angleToRad t) ^ 2 = 1)
    (hodd : I.sin (-angleToRad t) = -I.sin (angleToRad t))
    (heven : I.cos (-angleToRad t) = I.cos (angleToRad t)) :
    (∀ (k : Kernel) (x y : ℚ) (axis : ℤ), computeUVs k x y axis =
      ⟨(rotateUV ((Float2.mk (x * (axisLocals k axis).scaleLocal)
            (y * (axisLocals k axis).scaleLocal)).sub (axisLocals k axis).offsetLocal)
          (axisLocals k axis).angleCosLocal (axisLocals k axis).angleSinLocal).x -
        (⌊(rotateUV ((Float2.mk (x * (axisLocals k axis).scaleLocal)
            (y * (axisLocals k axis).scaleLocal)).sub (axisLocals k axis).offsetLocal)
          (axisLocals k axis).angleCosLocal (axisLocals k axis).angleSinLocal).x⌋ : ℤ),
      (rotateUV ((Float2.mk (x * (axisLocals k axis).scaleLocal)
            (y * (axisLocals k axis).scaleLocal)).sub (axisLocals k axis).offsetLocal)
          (axisLocals k axis).angleCosLocal (axisLocals k axis).angleSinLocal).y -
        (⌊(rotateUV ((Float2.mk (x * (axisLocals k axis).scaleLocal)
            (y * (axisLocals k axis).scaleLocal)).sub (axisLocals k axis).offsetLocal)
          (axisLocals k axis).angleCosLocal (axisLocals k axis).angleSinLocal).y⌋ : ℤ)⟩) ∧
    (∀ (tX tY tZ : Texture) (cfg : Kernel), cfg.angleX + cfg.rotateAngleGlobal = t →
      (init I tX tY tZ cfg).rotateX_Cos = I.cos (angleToRad t) ∧
      (init I tX tY tZ cfg).rotateX_Sin = I.sin (angleToRad t)) ∧
    rotateUV (rotateUV v (I.cos (angleToRad t)) (I.sin (angleToRad t)))
      (I.cos (angleToRad (-t))) (I.sin (angleToRad (-t))) = v := by
  refine ⟨fun _ _ _ _ => rfl, ?_, ?_⟩
  · intro tX tY tZ cfg h
    simp only [init, h, and_self]
  · rw [angleToRad_neg, hodd, heven]
    exact rotateUV_back v _ _ hunit

/-- Witness of `rotateUV_then_inverse`: the angle of 90 degrees and the vector `(1, 2)`. -/
theorem rotateUV_then_inverse_witness :
    rotateUV (rotateUV ⟨1, 2⟩ (circleIntrinsics.cos (angleToRad 90))
        (circleIntrinsics.sin (angleToRad 90)))
      (circleIntrinsics.cos (angleToRad (-90))) (circleIntrinsics.sin (angleToRad (-90)))
      = ⟨1, 2⟩ :=
  (rotateUV_then_inverse circleIntrinsics 90 ⟨1, 2⟩ (circleIntrinsics_unit _)
    (by simp only [circleIntrinsics]; ring)
    (by simp only [circleIntrinsics]; ring)).2.2

/-! ## Blend exponent zero -/

/-- C16: with `blendExponent = 0`, for every normal with at least one nonzero component
(components equal to zero included), every raw per-axis weight is `1` before normalization and
`computeWeights` returns exactly `(1/3, 1/3, 1/3)`. -/
theorem computeWeights_exponent_zero (I : Intrinsics) (tX tY tZ : Texture) (cfg : Kernel)
    (normal : Float4) (he : cfg.blendExponent = 0)
    (hne : normal.x ≠ 0 ∨ normal.y ≠ 0 ∨ normal.z ≠ 0) :
    rawWeights I (init I tX tY tZ cfg) normal.fabs = some ⟨1, 1, 1⟩ ∧
    computeWeights I (init I tX tY tZ cfg) normal = some ⟨1 / 3, 1 / 3, 1 / 3⟩ := by
  have he2 : (init I tX tY tZ cfg).blendExponent = 0 := he
  have hthr : (init I tX tY tZ cfg).kWeightThreshold = 1 / 10000 := rfl
  have hraw : rawWeights I (init I tX tY tZ cfg) normal.fabs = some ⟨1, 1, 1⟩ := by
    simp only [rawWeights, powf, he2, if_true]
  have hnz : ¬ (normal.fabs.x = 0 ∧ normal.fabs.y = 0 ∧ normal.fabs.z = 0) := by
    rw [fabs_eq_zero_iff]
    intro h
    rcases hne with h1 | h1 | h1
    · exact h1 h.1
    · exact h1 h.2.1
    · exact h1 h.2.2
  refine ⟨hraw, ?_⟩
  simp only [computeWeights, hnz, if_false, hraw, Option.map_some', cullWeights,
    normalizeWeights, hthr]
  norm_num

/-- Witness of `computeWeights_exponent_zero`: the normal `(0, 0, -5)`. -/
theorem computeWeights_exponent_zero_witness :
    rawWeights refIntrinsics
        (init refIntrinsics whiteTexture whiteTexture whiteTexture { blendExponent := 0 })
        (Float4.fabs ⟨0, 0, -5, 0⟩) = some ⟨1, 1, 1⟩ ∧
      computeWeights refIntrinsics
        (init refIntrinsics whiteTexture whiteTexture whiteTexture { blendExponent := 0 })
        ⟨0, 0, -5, 0⟩ = some ⟨1 / 3, 1 / 3, 1 / 3⟩ :=
  computeWeights_exponent_zero refIntrinsics whiteTexture whiteTexture whiteTexture
    { blendExponent := 0 } ⟨0, 0, -5, 0⟩ rfl (Or.inr (Or.inr (by norm_num)))

/-! ## Clamped selectors -/

theorem computeUVs_congr_locals (k : Kernel) (x y : ℚ) (a b : ℤ)
    (h : axisLocals k a = axisLocals k b) : computeUVs k x y a = computeUVs k x y b := by
  simp only [computeUVs, h]

/-- C17: selector values are clamped, not rejected. For every raw `filterMode`, after `init`
the stored `filterMode` is `min (max raw 0) 2`, lies in `{0, 1, 2}` and is the raw value when
that already lies in `{0, 1, 2}`, so `process` takes its three samples from exactly one of the
three samplers; for every axis id, `computeUVs x y axis = computeUVs x y (min (max axis 0) 2)`
and the four locals are those of exactly one axis. -/
theorem selectors_clamped (I : Intrinsics) (tX tY tZ : Texture) (cfg k : Kernel)
    (px : PixelInputs) (x y : ℚ) (axis : ℤ) :
    ((init I tX tY tZ cfg).filterMode = min (max cfg.filterMode 0) 2 ∧
      ((init I tX tY tZ cfg).filterMode = 0 ∨ (init I tX tY tZ cfg).filterMode = 1 ∨
        (init I tX tY tZ cfg).filterMode = 2) ∧
      (cfg.filterMode = 0 ∨ cfg.filterMode = 1 ∨ cfg.filterMode = 2 →
        (init I tX tY tZ cfg).filterMode = cfg.filterMode)) ∧
    ((k.filterMode = 0 → processSamples I k tX tY tZ px =
        (sampleLinear k tX tY tZ (computeUVs k px.pos.y px.pos.z 0) 0,
          sampleLinear k tX tY tZ (computeUVs k px.pos.x px.pos.z 1) 1,
          sampleLinear k tX tY tZ (computeUVs k px.pos.x px.pos.y 2) 2)) ∧
      (k.filterMode = 1 → processSamples I k tX tY tZ px =
        (sampleBilinear k tX tY tZ (computeUVs k px.pos.y px.pos.z 0) 0,
          sampleBilinear k tX tY tZ (computeUVs k px.pos.x px.pos.z 1) 1,
          sampleBilinear k tX tY tZ (computeUVs k px.pos.x px.pos.y 2) 2)) ∧
      (k.filterMode = 2 → processSamples I k tX tY tZ px =
        (sampleAnisotropic I k tX tY tZ (computeUVs k px.pos.y px.pos.z 0) px.posRight
            px.posDown 0,
          sampleAnisotropic I k tX tY tZ (computeUVs k px.pos.x px.pos.z 1) px.posRight
            px.posDown 1,
          sampleAnisotropic I k tX tY tZ (computeUVs k px.pos.x px.pos.y 2) px.posRight
            px.posDown 2))) ∧
    computeUVs k x y axis = computeUVs k x y (min (max axis 0) 2) ∧
    ((min (max axis 0) 2 = 0 ∧
        axisLocals k axis = ⟨k.scaleX, k.offsetX, k.rotateX_Cos, k.rotateX_Sin⟩) ∨
      (min (max axis 0) 2 = 1 ∧
        axisLocals k axis = ⟨k.scaleY, k.offsetY, k.rotateY_Cos, k.rotateY_Sin⟩) ∨
      (min (max axis 0) 2 = 2 ∧
        axisLocals k axis = ⟨k.scaleZ, k.offsetZ, k.rotateZ_Cos, k.rotateZ_Sin⟩)) := by
  refine ⟨⟨rfl, ?_, ?_⟩, ⟨?_, ?_, ?_⟩, ?_, ?_⟩
  · show min (max cfg.filterMode 0) 2 = 0 ∨ min (max cfg.filterMode 0) 2 = 1 ∨
      min (max cfg.filterMode 0) 2 = 2
    omega
  · intro h
    show min (max cfg.filterMode 0) 2 = cfg.filterMode
    omega
  · intro h
    simp [processSamples, h]
  · intro h
    simp [processSamples, h]
  · intro h
    simp [processSamples, h]
  · apply computeUVs_congr_locals
    rw [axisLocals_eq, axisLocals_eq]
    have h2 : min (max (min (max axis 0) 2) 0) 2 = min (max axis 0) 2 := by omega
    rw [h2]
  · have h : min (max axis 0) 2 = 0 ∨ min (max axis 0) 2 = 1 ∨ min (max axis 0) 2 = 2 := by
      omega
    rw [axisLocals_eq]
    rcases h with h | h | h
    · exact Or.inl ⟨h, by rw [h]; rfl⟩
    · exact Or.inr (Or.inl ⟨h, by rw [h]; rfl⟩)
    · exact Or.inr (Or.inr ⟨h, by rw [h]; rfl⟩)

/-- Witness of `selectors_clamped`: the raw filter mode `7` is stored as `2` and the filter
mode `1` is kept. -/
theorem selectors_clamped_witness :
    (init refIntrinsics whiteTexture whiteTexture whiteTexture { filterMode := 7 }).filterMode
        = min (max 7 0) 2 ∧
      (init refIntrinsics whiteTexture whiteTexture whiteTexture { filterMode := 1 }).filterMode
        = 1 :=
  ⟨(selectors_clamped refIntrinsics whiteTexture whiteTexture whiteTexture { filterMode := 7 }
      {} examplePixel 0 0 5).1.1,
    (selectors_clamped refIntrinsics whiteTexture whiteTexture whiteTexture { filterMode := 1 }
      {} examplePixel 0 0 5).1.2.2 (Or.inr (Or.inl rfl))⟩

/-! ## Pixels without normal data -/

theorem processOutput_zero_weights (k : Kernel) (sX sY sZ : Float4) :
    processOutput k Float3.zero sX sY sZ = Float4.zero := by
  simp only [processOutput, Float3.zero, Float4.zero, Float4.scale, Float4.add, mul_zero,
    add_zero, lt_self_iff_false, gt_iff_lt, if_false, ite_self]

theorem processPremult_zero (k : Kernel) (beauty : Float4) :
    processPremult k beauty Float4.zero = Float4.zero := by
  simp only [processPremult, Float4.zero, Float4.scale, zero_mul, ite_self]

/-- C19: a pixel with no normal data is written as transparent black: when the x, y and z of
the normal are all zero, the pixel written by `process` is `(0, 0, 0, 0)` for every kernel
state (every `axisOutput`, filter mode, `premult` and `useTextureAlpha` flag, blend exponent),
every beauty pixel and every texture. -/
theorem process_zero_normal (I : Intrinsics) (k : Kernel) (tX tY tZ : Texture)
    (px : PixelInputs) (hn : px.normal.x = 0 ∧ px.normal.y = 0 ∧ px.normal.z = 0) :
    computeWeights I k px.normal = some ⟨0, 0, 0⟩ ∧
    process I k tX tY tZ px = some ⟨0, 0, 0, 0⟩ := by
  have hw : computeWeights I k px.normal = some Float3.zero := by
    simp only [computeWeights, (fabs_eq_zero_iff px.normal).mpr hn, and_self, if_true]
  refine ⟨hw, ?_⟩
  rw [process_of_weights I k tX tY tZ px _ hw, processOutput_zero_weights,
    processPremult_zero]
  rfl

/-- Witness of `process_zero_normal`: anisotropic filtering with both flags set, a negative
blend exponent and white textures. -/
theorem process_zero_normal_witness :
    process refIntrinsics
        (init refIntrinsics whiteTexture whiteTexture whiteTexture
          { filterMode := 2, useTextureAlpha := true, blendExponent := -1 })
        whiteTexture whiteTexture whiteTexture
        { beauty := ⟨1, 1, 1, 1⟩, pos := ⟨1 / 4, 1 / 2, 3 / 4, 1⟩,
          posRight := ⟨1 / 2, 1 / 2, 3 / 4, 1⟩, posDown := ⟨1 / 4, 3 / 4, 3 / 4, 1⟩,
          normal := ⟨0, 0, 0, 1⟩ } = some ⟨0, 0, 0, 0⟩ :=
  (process_zero_normal refIntrinsics _ whiteTexture whiteTexture whiteTexture
    { beauty := ⟨1, 1, 1, 1⟩, pos := ⟨1 / 4, 1 / 2, 3 / 4, 1⟩,
      posRight := ⟨1 / 2, 1 / 2, 3 / 4, 1⟩, posDown := ⟨1 / 4, 3 / 4, 3 / 4, 1⟩,
      normal := ⟨0, 0, 0, 1⟩ } ⟨rfl, rfl, rfl⟩).2

/-! ## Anisotropic sampler: tap offsets and mean -/

theorem foldl_add_eq_sum (f : ℕ → Float4) (n : ℕ) :
    (List.range n).foldl (fun result i => result.add (f i)) Float4.zero =
      ⟨∑ i in Finset.range n, (f i).x, ∑ i in Finset.range n, (f i).y,
        ∑ i in Finset.range n, (f i).z, ∑ i in Finset.range n, (f i).w⟩ := by
  induction n with
  | zero => simp [Float4.zero]
  | succ n ih =>
    rw [List.range_succ, List.foldl_append, ih]
    simp [Float4.add, Finset.sum_range_succ]

theorem sampleAnisotropic_eq_mean (I : Intrinsics) (k : Kernel) (tX tY tZ : Texture)
    (uv : Float2) (posRight posDown : Float4) (axis : ℤ) :
    sampleAnisotropic I k tX tY tZ uv posRight posDown axis =
      ⟨(∑ i in Finset.range k.anisotropicSampleCount.toNat,
          (anisoTap k tX tY tZ uv (anisoFootprint I k uv posRight posDown axis).1
            (anisoFootprint I k uv posRight posDown axis).2 (min (max axis 0) 2) i).x) /
          (k.anisotropicSampleCount : ℚ),
        (∑ i in Finset.range k.anisotropicSampleCount.toNat,
          (anisoTap k tX tY tZ uv (anisoFootprint I k uv posRight posDown axis).1
            (anisoFootprint I k uv posRight posDown axis).2 (min (max axis 0) 2) i).y) /
          (k.anisotropicSampleCount : ℚ),
        (∑ i in Finset.range k.anisotropicSampleCount.toNat,
          (anisoTap k tX tY tZ uv (anisoFootprint I k uv posRight posDown axis).1
            (anisoFootprint I k uv posRight posDown axis).2 (min (max axis 0) 2) i).z) /
          (k.anisotropicSampleCount : ℚ),
        (∑ i in Finset.range k.anisotropicSampleCount.toNat,
          (anisoTap k tX tY tZ uv (anisoFootprint I k uv posRight posDown axis).1
            (anisoFootprint I k uv posRight posDown axis).2 (min (max axis 0) 2) i).w) /
          (k.anisotropicSampleCount : ℚ)⟩ := by
  simp only [sampleAnisotropic, anisoFootprint, foldl_add_eq_sum, Float4.divS]

theorem sum_range_shifted (c s : ℚ) (n : ℕ) :
    ∑ i in Finset.range n, ((i : ℚ) - c) * s = ((n : ℚ) * ((n : ℚ) - 1) / 2 - n * c) * s := by
  induction n with
  | zero => simp
  | succ n ih =>
    rw [Finset.sum_range_succ, ih]
    push_cast
    ring

theorem anisoOffset_eq (k : Kernel) (L : ℚ) (i : ℕ) :
    anisoOffset k L i =
      ((i : ℚ) - ((k.anisotropicSampleCount : ℚ) - 1) / 2) *
        (L / ((k.anisotropicSampleCount : ℚ) - 1)) := by
  simp only [anisoOffset, anisoCenterOffset, anisoStep]
  push_cast
  ring

theorem anisoTap_axisX (k : Kernel) (tX tY tZ : Texture) (uv majorDir : Float2) (L : ℚ)
    (i : ℕ) :
    anisoTap k tX tY tZ uv majorDir L 0 i =
      tX.fetch ((anisoSampleUV k uv majorDir L i).x * (k.textureX_Size.x : ℚ))
        ((anisoSampleUV k uv majorDir L i).y * (k.textureX_Size.y : ℚ)) := by
  simp [anisoTap, Float2.mulInt2]

theorem anisoTap_axisY (k : Kernel) (tX tY tZ : Texture) (uv majorDir : Float2) (L : ℚ)
    (i : ℕ) :
    anisoTap k tX tY tZ uv majorDir L 1 i =
      tY.fetch ((anisoSampleUV k uv majorDir L i).x * (k.textureY_Size.x : ℚ))
        ((anisoSampleUV k uv majorDir L i).y * (k.textureY_Size.y : ℚ)) := by
  simp [anisoTap, Float2.mulInt2]

theorem anisoTap_axisZ (k : Kernel) (tX tY tZ : Texture) (uv majorDir : Float2) (L : ℚ)
    (i : ℕ) :
    anisoTap k tX tY tZ uv majorDir L 2 i =
      tZ.fetch ((anisoSampleUV k uv majorDir L i).x * (k.textureZ_Size.x : ℚ))
        ((anisoSampleUV k uv majorDir L i).y * (k.textureZ_Size.y : ℚ)) := by
  simp [anisoTap, Float2.mulInt2]

theorem sampleAnisotropic_offsets_aux (I : Intrinsics) (k : Kernel) (tX tY tZ : Texture)
    (uv dR dD : Float2) (posRight posDown : Float4) (axis : ℤ) (L : ℚ)
    (hN : 2 ≤ k.anisotropicSampleCount) :
    ((anisoMajor I dR dD).2 = max (dR.length I) (dD.length I) ∧
      (dR.length I ≤ dD.length I → (anisoMajor I dR dD).1 = dD.normalize I) ∧
      (dD.length I < dR.length I → (anisoMajor I dR dD).1 = dR.normalize I)) ∧
    (∀ i : ℕ, anisoOffset k L i =
      ((i : ℚ) - ((k.anisotropicSampleCount : ℚ) - 1) / 2) *
        (L / ((k.anisotropicSampleCount : ℚ) - 1))) ∧
    (∀ i : ℕ, anisoOffset k L (i + 1) - anisoOffset k L i =
      L / ((k.anisotropicSampleCount : ℚ) - 1)) ∧
    (∀ i : ℕ, i < k.anisotropicSampleCount.toNat →
      anisoOffset k L i = -anisoOffset k L (k.anisotropicSampleCount.toNat - 1 - i)) ∧
    ∑ i in Finset.range k.anisotropicSampleCount.toNat, anisoOffset k L i = 0 ∧
    (anisoOffset k L 0 = -(L / 2) ∧
      anisoOffset k L (k.anisotropicSampleCount.toNat - 1) = L / 2) ∧
    sampleAnisotropic I k tX tY tZ uv posRight posDown axis =
      ⟨(∑ i in Finset.range k.anisotropicSampleCount.toNat,
          (anisoTap k tX tY tZ uv (anisoFootprint I k uv posRight posDown axis).1
            (anisoFootprint I k uv posRight posDown axis).2 (min (max axis 0) 2) i).x) /
          (k.anisotropicSampleCount : ℚ),
        (∑ i in Finset.range k.anisotropicSampleCount.toNat,
          (anisoTap k tX tY tZ uv (anisoFootprint I k uv posRight posDown axis).1
            (anisoFootprint I k uv posRight posDown axis).2 (min (max axis 0) 2) i).y) /
          (k.anisotropicSampleCount : ℚ),
        (∑ i in Finset.range k.anisotropicSampleCount.toNat,
          (anisoTap k tX tY tZ uv (anisoFootprint I k uv posRight posDown axis).1
            (anisoFootprint I k uv posRight posDown axis).2 (min (max axis 0) 2) i).z) /
          (k.anisotropicSampleCount : ℚ),
        (∑ i in Finset.range k.anisotropicSampleCount.toNat,
          (anisoTap k tX tY tZ uv (anisoFootprint I k uv posRight posDown axis).1
            (anisoFootprint I k uv posRight posDown axis).2 (min (max axis 0) 2) i).w) /
          (k.anisotropicSampleCount : ℚ)⟩ := by
  have hcast : ((k.anisotropicSampleCount.toNat : ℕ) : ℚ) = (k.anisotropicSampleCount : ℚ) := by
    have h : ((k.anisotropicSampleCount.toNat : ℕ) : ℤ) = k.anisotropicSampleCount :=
      Int.toNat_of_nonneg (by omega)
    exact_mod_cast congrArg (fun z : ℤ => (z : ℚ)) h
  have hN2 : (2 : ℚ) ≤ (k.anisotropicSampleCount : ℚ) := by exact_mod_cast hN
  have hne : (k.anisotropicSampleCount : ℚ) - 1 ≠ 0 := by
    have : (0 : ℚ) < (k.anisotropicSampleCount : ℚ) - 1 := by linarith
    exact this.ne'
  have hpos : 1 ≤ k.anisotropicSampleCount.toNat := by omega
  refine ⟨⟨?_, ?_, ?_⟩, anisoOffset_eq k L, ?_, ?_, ?_, ⟨?_, ?_⟩,
    sampleAnisotropic_eq_mean I k tX tY tZ uv posRight posDown axis⟩
  · simp only [anisoMajor]
    split_ifs with h
    · exact (max_eq_left h.le).symm
    · exact (max_eq_right (not_lt.mp h)).symm
  · intro h
    simp only [anisoMajor, if_neg (not_lt.mpr h)]
  · intro h
    simp only [anisoMajor, gt_iff_lt, if_pos h]
  · intro i
    rw [anisoOffset_eq, anisoOffset_eq]
    push_cast
    field_simp
    ring
  · intro i hi
    rw [anisoOffset_eq, anisoOffset_eq]
    have hsub : ((k.anisotropicSampleCount.toNat - 1 - i : ℕ) : ℚ) =
        (k.anisotropicSampleCount : ℚ) - 1 - i := by
      rw [Nat.cast_sub (by omega), Nat.cast_sub hpos, hcast]
      push_cast
      ring
    rw [hsub]
    ring
  · have h : ∀ i ∈ Finset.range k.anisotropicSampleCount.toNat, anisoOffset k L i =
        ((i : ℚ) - ((k.anisotropicSampleCount : ℚ) - 1) / 2) *
          (L / ((k.anisotropicSampleCount : ℚ) - 1)) := fun i _ => anisoOffset_eq k L i
    rw [Finset.sum_congr rfl h, sum_range_shifted, hcast]
    have : (k.anisotropicSampleCount : ℚ) * ((k.anisotropicSampleCount : ℚ) - 1) / 2 -
        (k.anisotropicSampleCount : ℚ) * (((k.anisotropicSampleCount : ℚ) - 1) / 2) = 0 := by
      ring
    rw [this, zero_mul]
  · rw [anisoOffset_eq]
    push_cast
    field_simp
    ring
  · rw [anisoOffset_eq, Nat.cast_sub hpos, hcast]
    push_cast
    field_simp
    ring

/-- C18: in `sampleAnisotropic` with sample count `N >= 2` and footprint length `L` (the larger
of the lengths of the right and down derivatives of the clamped axis, the down derivative being
taken on a tie), tap `i` is fetched at the UV `uv + majorDir * offset_i`, times the cached
texture size, where `offset_i = (i - (N-1)/2) * L/(N-1)` for `i = 0..N-1`: consecutive offsets
differ by exactly `L/(N-1)`, `offset_i = -offset_(N-1-i)`, the offsets sum to `0`, the first and
last are `-L/2` and `+L/2`, and the returned colour is the arithmetic mean of the `N` fetched
colours. -/
theorem sampleAnisotropic_offsets (I : Intrinsics) (k : Kernel) (tX tY tZ : Texture)
    (uv dR dD : Float2) (posRight posDown : Float4) (axis : ℤ) (L : ℚ)
    (hN : 2 ≤ k.anisotropicSampleCount) :
    ((anisoMajor I dR dD).2 = max (dR.length I) (dD.length I) ∧
      (dR.length I ≤ dD.length I → (anisoMajor I dR dD).1 = dD.normalize I) ∧
      (dD.length I < dR.length I → (anisoMajor I dR dD).1 = dR.normalize I)) ∧
    (∀ i : ℕ, anisoOffset k L i =
      ((i : ℚ) - ((k.anisotropicSampleCount : ℚ) - 1) / 2) *
        (L / ((k.anisotropicSampleCount : ℚ) - 1))) ∧
    (∀ i : ℕ, anisoOffset k L (i + 1) - anisoOffset k L i =
      L / ((k.anisotropicSampleCount : ℚ) - 1)) ∧
    (∀ i : ℕ, i < k.anisotropicSampleCount.toNat →
      anisoOffset k L i = -anisoOffset k L (k.anisotropicSampleCount.toNat - 1 - i)) ∧
    ∑ i in Finset.range k.anisotropicSampleCount.toNat, anisoOffset k L i = 0 ∧
    (anisoOffset k L 0 = -(L / 2) ∧
      anisoOffset k L (k.anisotropicSampleCount.toNat - 1) = L / 2) ∧
    sampleAnisotropic I k tX tY tZ uv posRight posDown axis =
      ⟨(∑ i in Finset.range k.anisotropicSampleCount.toNat,
          (anisoTap k tX tY tZ uv (anisoFootprint I k uv posRight posDown axis).1
            (anisoFootprint I k uv posRight posDown axis).2 (min (max axis 0) 2) i).x) /
          (k.anisotropicSampleCount : ℚ),
        (∑ i in Finset.range k.anisotropicSampleCount.toNat,
          (anisoTap k tX tY tZ uv (anisoFootprint I k uv posRight posDown axis).1
            (anisoFootprint I k uv posRight posDown axis).2 (min (max axis 0) 2) i).y) /
          (k.anisotropicSampleCount : ℚ),
        (∑ i in Finset.range k.anisotropicSampleCount.toNat,
          (anisoTap k tX tY tZ uv (anisoFootprint I k uv posRight posDown axis).1
            (anisoFootprint I k uv posRight posDown axis).2 (min (max axis 0) 2) i).z) /
          (k.anisotropicSampleCount : ℚ),
        (∑ i in Finset.range k.anisotropicSampleCount.toNat,
          (anisoTap k tX tY tZ uv (anisoFootprint I k uv posRight posDown axis).1
            (anisoFootprint I k uv posRight posDown axis).2 (min (max axis 0) 2) i).w) /
          (k.anisotropicSampleCount : ℚ)⟩ ∧
    anisoFootprint I k uv posRight posDown axis =
      anisoMajor I (anisoDerivatives k uv posRight posDown (min (max axis 0) 2)).1
        (anisoDerivatives k uv posRight posDown (min (max axis 0) 2)).2 ∧
    (anisoDerivatives k uv posRight posDown 0 =
        (computeUVDerivatives k uv posRight.y posRight.z 0,
          computeUVDerivatives k uv posDown.y posDown.z 0) ∧
      anisoDerivatives k uv posRight posDown 1 =
        (computeUVDerivatives k uv posRight.x posRight.z 1,
          computeUVDerivatives k uv posDown.x posDown.z 1) ∧
      anisoDerivatives k uv posRight posDown 2 =
        (computeUVDerivatives k uv posRight.x posRight.y 2,
          computeUVDerivatives k uv posDown.x posDown.y 2)) ∧
    (dR.length I = I.sqrt (dR.x * dR.x + dR.y * dR.y) ∧
      dR.normalize I = ⟨dR.x / dR.length I, dR.y / dR.length I⟩) ∧
    (∀ (i : ℕ) (majorDir : Float2), anisoSampleUV k uv majorDir L i =
      ⟨uv.x + majorDir.x * (((i : ℚ) - ((k.anisotropicSampleCount : ℚ) - 1) / 2) *
          (L / ((k.anisotropicSampleCount : ℚ) - 1))),
        uv.y + majorDir.y * (((i : ℚ) - ((k.anisotropicSampleCount : ℚ) - 1) / 2) *
          (L / ((k.anisotropicSampleCount : ℚ) - 1)))⟩) ∧
    (∀ (i : ℕ) (majorDir : Float2),
      anisoTap k tX tY tZ uv majorDir L 0 i =
        tX.fetch ((anisoSampleUV k uv majorDir L i).x * (k.textureX_Size.x : ℚ))
          ((anisoSampleUV k uv majorDir L i).y * (k.textureX_Size.y : ℚ)) ∧
      anisoTap k tX tY tZ uv majorDir L 1 i =
        tY.fetch ((anisoSampleUV k uv majorDir L i).x * (k.textureY_Size.x : ℚ))
          ((anisoSampleUV k uv majorDir L i).y * (k.textureY_Size.y : ℚ)) ∧
      anisoTap k tX tY tZ uv majorDir L 2 i =
        tZ.fetch ((anisoSampleUV k uv majorDir L i).x * (k.textureZ_Size.x : ℚ))
          ((anisoSampleUV k uv majorDir L i).y * (k.textureZ_Size.y : ℚ))) := by
  obtain ⟨h1, h2, h3, h4, h5, h6, h7⟩ :=
    sampleAnisotropic_offsets_aux I k tX tY tZ uv dR dD posRight posDown axis L hN
  refine ⟨h1, h2, h3, h4, h5, h6, h7, rfl, ⟨?_, ?_, ?_⟩, ⟨rfl, rfl⟩, ?_, ?_⟩
  · simp [anisoDerivatives]
  · simp [anisoDerivatives]
  · simp [anisoDerivatives]
  · intro i majorDir
    simp only [anisoSampleUV, Float2.add, Float2.scale, anisoOffset_eq]
  · intro i majorDir
    exact ⟨anisoTap_axisX k tX tY tZ uv majorDir L i, anisoTap_axisY k tX tY tZ uv majorDir L i,
      anisoTap_axisZ k tX tY tZ uv majorDir L i⟩

/-- Witness of `sampleAnisotropic_offsets`: with the default count `8` and the footprint `7`
the first offset is `-7/2` and consecutive offsets differ by `7/7`; with the count `2`, the
centre UV `(1/16, 1/2)`, the major direction `(-1, 0)` and the footprint `1/4`, tap 1 of axis Z
fetches at the pixel coordinates `(-1/4, 2)` of a 4 x 4 texture. -/
theorem sampleAnisotropic_offsets_witness :
    anisoOffset {} 7 0 = -(7 / 2) ∧
      anisoOffset {} 7 (0 + 1) - anisoOffset {} 7 0 =
        7 / ((({} : Kernel).anisotropicSampleCount : ℚ) - 1) ∧
      anisoTap
        (init refIntrinsics (probeTexture 4 4) (probeTexture 4 4) (probeTexture 4 4)
          { anisotropicSampleCount := 2 })
        (probeTexture 4 4) (probeTexture 4 4) (probeTexture 4 4)
        ⟨1 / 16, 1 / 2⟩ ⟨-1, 0⟩ (1 / 4) 2 1 = ⟨-(1 / 4), 2, 0, 0⟩ := by
  have h := sampleAnisotropic_offsets refIntrinsics {} whiteTexture whiteTexture whiteTexture
    ⟨0, 0⟩ ⟨1, 0⟩ ⟨0, 1⟩ ⟨0, 0, 0, 0⟩ ⟨0, 0, 0, 0⟩ 0 7 (by decide)
  have g := sampleAnisotropic_offsets refIntrinsics
    (init refIntrinsics (probeTexture 4 4) (probeTexture 4 4) (probeTexture 4 4)
      { anisotropicSampleCount := 2 })
    (probeTexture 4 4) (probeTexture 4 4) (probeTexture 4 4)
    ⟨1 / 16, 1 / 2⟩ ⟨1, 0⟩ ⟨0, 1⟩ ⟨0, 0, 0, 0⟩ ⟨0, 0, 0, 0⟩ 2 (1 / 4) (by decide)
  refine ⟨h.2.2.2.2.2.1.1, h.2.2.1 0, ?_⟩
  rw [(g.2.2.2.2.2.2.2.2.2.2.2 1 ⟨-1, 0⟩).2.2, g.2.2.2.2.2.2.2.2.2.2.1 1 ⟨-1, 0⟩]
  norm_num [init, probeTexture]

/-! ## Anisotropic sampler: taps outside the unit square -/

/-- C20: `sampleAnisotropic` does not fold its tap coordinates back into `[0, 1)`: tap `i` is
fetched at `uv + majorDir * offset_i` times the cached texture size. With two samples, the
centre position `(1/16, 1/2)` on axis Z (UV `(1/16, 1/2)`, inside the unit square) and the right
neighbour `(5/16, 1/2)`, the footprint is `1/4` along `(-1, 0)` and tap 1 is taken at the UV
`(-1/16, 1/2)`, whose first component is below `0`: its pixel coordinate `-1/4` is outside the
texture. -/
theorem sampleAnisotropic_taps_not_folded (k : Kernel) (tX tY tZ : Texture)
    (uv majorDir : Float2) (L : ℚ) (i : ℕ) :
    anisoSampleUV k uv majorDir L i =
      ⟨uv.x + majorDir.x * anisoOffset k L i, uv.y + majorDir.y * anisoOffset k L i⟩ ∧
    (anisoTap k tX tY tZ uv majorDir L 0 i =
        tX.fetch ((anisoSampleUV k uv majorDir L i).x * (k.textureX_Size.x : ℚ))
          ((anisoSampleUV k uv majorDir L i).y * (k.textureX_Size.y : ℚ)) ∧
      anisoTap k tX tY tZ uv majorDir L 1 i =
        tY.fetch ((anisoSampleUV k uv majorDir L i).x * (k.textureY_Size.x : ℚ))
          ((anisoSampleUV k uv majorDir L i).y * (k.textureY_Size.y : ℚ)) ∧
      anisoTap k tX tY tZ uv majorDir L 2 i =
        tZ.fetch ((anisoSampleUV k uv majorDir L i).x * (k.textureZ_Size.x : ℚ))
          ((anisoSampleUV k uv majorDir L i).y * (k.textureZ_Size.y : ℚ))) ∧
    (computeUVs
        (init refIntrinsics (probeTexture 4 4) (probeTexture 4 4) (probeTexture 4 4)
          { anisotropicSampleCount := 2, filterMode := 2 })
        (1 / 16) (1 / 2) 2 = ⟨1 / 16, 1 / 2⟩ ∧
      anisoFootprint refIntrinsics
        (init refIntrinsics (probeTexture 4 4) (probeTexture 4 4) (probeTexture 4 4)
          { anisotropicSampleCount := 2, filterMode := 2 })
        ⟨1 / 16, 1 / 2⟩ ⟨5 / 16, 1 / 2, 0, 1⟩ ⟨1 / 16, 1 / 2, 0, 1⟩ 2 = (⟨-1, 0⟩, 1 / 4) ∧
      anisoSampleUV
        (init refIntrinsics (probeTexture 4 4) (probeTexture 4 4) (probeTexture 4 4)
          { anisotropicSampleCount := 2, filterMode := 2 })
        ⟨1 / 16, 1 / 2⟩ ⟨-1, 0⟩ (1 / 4) 1 = ⟨-(1 / 16), 1 / 2⟩ ∧
      anisoTap
        (init refIntrinsics (probeTexture 4 4) (probeTexture 4 4) (probeTexture 4 4)
          { anisotropicSampleCount := 2, filterMode := 2 })
        (probeTexture 4 4) (probeTexture 4 4) (probeTexture 4 4)
        ⟨1 / 16, 1 / 2⟩ ⟨-1, 0⟩ (1 / 4) 2 1 = ⟨-(1 / 4), 2, 0, 0⟩) := by
  refine ⟨?_, ⟨anisoTap_axisX k tX tY tZ uv majorDir L i, anisoTap_axisY k tX tY tZ uv majorDir L i,
    anisoTap_axisZ k tX tY tZ uv majorDir L i⟩, ?_, ?_, ?_, ?_⟩
  · simp only [anisoSampleUV, Float2.add, Float2.scale]
  · norm_num [computeUVs, axisLocals, Float2.sub, init, probeTexture, refIntrinsics, angleToRad,
      Float2.add, Float2.divInt2]
  · norm_num [anisoFootprint, anisoDerivatives, anisoMajor, computeUVDerivatives, wrappedDiff2,
      wrappedDiff, computeUVs, axisLocals, Float2.sub, init, probeTexture, refIntrinsics,
      angleToRad, Float2.add, Float2.divInt2, Float2.length, Float2.normalize, Float2.divS,
      Float2.zero]
  · norm_num [anisoSampleUV, anisoOffset, anisoCenterOffset, anisoStep, Float2.add,
      Float2.scale, init]
  · rw [anisoTap_axisZ]
    norm_num [anisoSampleUV, anisoOffset, anisoCenterOffset, anisoStep, Float2.add,
      Float2.scale, init, probeTexture]

/-! ## Float32 rounding: basic facts -/

theorem rne_intCast (n : ℤ) : roundNearestEven (n : ℚ) = n := by
  simp [roundNearestEven]

theorem rne_floor_le (t : ℚ) : ⌊t⌋ ≤ roundNearestEven t := by
  simp only [roundNearestEven]
  split_ifs <;> omega

theorem rne_le_floor_succ (t : ℚ) : roundNearestEven t ≤ ⌊t⌋ + 1 := by
  simp only [roundNearestEven]
  split_ifs <;> omega

theorem rne_mono {s t : ℚ} (h : s ≤ t) : roundNearestEven s ≤ roundNearestEven t := by
  have hfl : ⌊s⌋ ≤ ⌊t⌋ := Int.floor_mono h
  rcases hfl.lt_or_eq with hlt | heq
  · exact le_trans (rne_le_floor_succ s) (le_trans (by omega) (rne_floor_le t))
  · simp only [roundNearestEven, heq]
    have hs : s - (⌊t⌋ : ℤ) ≤ t - (⌊t⌋ : ℤ) := by linarith
    split_ifs <;> first | omega | linarith

theorem rne_err (t : ℚ) : |(roundNearestEven t : ℚ) - t| ≤ 1 / 2 := by
  have h1 := Int.floor_le t
  have h2 := Int.lt_floor_add_one t
  simp only [roundNearestEven]
  rw [abs_le]
  split_ifs <;> push_cast <;> constructor <;> linarith


theorem log_two_bounds {q : ℚ} (hq : 0 < q) :
    (2 : ℚ) ^ Int.log 2 q ≤ q ∧ q < (2 : ℚ) ^ (Int.log 2 q + 1) := by
  have h1 := Int.zpow_log_le_self (b := 2) (r := q) (by norm_num) hq
  have h2 := Int.lt_zpow_succ_log_self (b := 2) (by norm_num) q
  rw [Nat.cast_ofNat] at h1 h2
  exact ⟨h1, h2⟩

theorem log_two_eq {q : ℚ} {e : ℤ} (hq : 0 < q) (h1 : (2 : ℚ) ^ e ≤ q)
    (h2 : q < (2 : ℚ) ^ (e + 1)) : Int.log 2 q = e := by
  have a : e ≤ Int.log 2 q := by
    rw [← Int.zpow_le_iff_le_log (by norm_num) hq, Nat.cast_ofNat]
    exact h1
  have b : Int.log 2 q < e + 1 := by
    rw [← Int.lt_zpow_iff_log_lt (by norm_num) hq, Nat.cast_ofNat]
    exact h2
  omega

theorem two_zpow_pos (u : ℤ) : (0 : ℚ) < 2 ^ u := zpow_pos (by norm_num) u

theorem two_zpow_le {a b : ℤ} (h : a ≤ b) : (2 : ℚ) ^ a ≤ 2 ^ b :=
  zpow_le_zpow_right₀ (by norm_num) h

theorem two_zpow_lt_iff {a b : ℤ} : (2 : ℚ) ^ a < 2 ^ b ↔ a < b :=
  zpow_lt_zpow_iff_right₀ (by norm_num)

theorem two_zpow_sub (a b : ℤ) : (2 : ℚ) ^ (a - b) = 2 ^ a / 2 ^ b :=
  zpow_sub₀ (by norm_num) a b

theorem two_zpow_nonneg_cast {d : ℤ} (hd : 0 ≤ d) :
    (2 : ℚ) ^ d = (((2 : ℤ) ^ d.toNat : ℤ) : ℚ) := by
  obtain ⟨n, rfl⟩ := Int.eq_ofNat_of_zero_le hd
  simp

theorem ulpExp_ge (q : ℚ) : -149 ≤ ulpExp q := le_max_right _ _

theorem ulpExp_ge_log (q : ℚ) : Int.log 2 |q| - 23 ≤ ulpExp q := le_max_left _ _

theorem roundF32_zero : roundF32 0 = 0 := by
  simp [roundF32, roundNearestEven]

/-- The scaled value `q / 2 ^ ulpExp q` lies strictly between `-2^24` and `2^24`. -/
theorem scaled_abs_lt (q : ℚ) : |q / 2 ^ ulpExp q| < 2 ^ (24 : ℕ) := by
  rcases eq_or_ne q 0 with rfl | hq
  · simp
  · have hpos : 0 < |q| := abs_pos.mpr hq
    obtain ⟨-, hhi⟩ := log_two_bounds hpos
    rw [abs_div, abs_of_pos (two_zpow_pos _), div_lt_iff₀ (two_zpow_pos _)]
    calc |q| < (2 : ℚ) ^ (Int.log 2 |q| + 1) := hhi
      _ ≤ 2 ^ (ulpExp q + 24) := two_zpow_le (by have := ulpExp_ge_log q; omega)
      _ = 2 ^ (24 : ℕ) * 2 ^ ulpExp q := by
        rw [zpow_add₀ (by norm_num), mul_comm]; norm_num

theorem rne_scaled_abs_le (q : ℚ) : |roundNearestEven (q / 2 ^ ulpExp q)| ≤ 2 ^ (24 : ℕ) := by
  have h := abs_lt.mp (scaled_abs_lt q)
  have h1 : roundNearestEven (((-(2 ^ 24) : ℤ)) : ℚ) ≤ roundNearestEven (q / 2 ^ ulpExp q) :=
    rne_mono (by push_cast; linarith [h.1])
  have h2 : roundNearestEven (q / 2 ^ ulpExp q) ≤ roundNearestEven (((2 ^ 24 : ℤ)) : ℚ) :=
    rne_mono (by push_cast; linarith [h.2])
  rw [rne_intCast] at h1 h2
  rw [abs_le]
  constructor <;> omega

/-- A number `m * 2^u` with `|m| < 2^24` and `u ≥ -149` is a float32: rounding keeps it. -/
theorem roundF32_of_repr (m u : ℤ) (hm : |m| < 2 ^ (24 : ℕ)) (hu : -149 ≤ u) :
    roundF32 ((m : ℚ) * 2 ^ u) = (m : ℚ) * 2 ^ u := by
  rcases eq_or_ne m 0 with rfl | hm0
  · simp [roundF32_zero]
  · have hmq : (0 : ℚ) < |(m : ℚ)| := abs_pos.mpr (by exact_mod_cast hm0)
    have habs : |(m : ℚ) * 2 ^ u| = |(m : ℚ)| * 2 ^ u := by
      rw [abs_mul, abs_of_pos (two_zpow_pos u)]
    have hpos : 0 < |(m : ℚ) * 2 ^ u| := by
      rw [habs]; exact mul_pos hmq (two_zpow_pos u)
    obtain ⟨hlo, -⟩ := log_two_bounds hpos
    have hm' : |(m : ℚ)| < 2 ^ (24 : ℕ) := by exact_mod_cast hm
    have hlt : (2 : ℚ) ^ Int.log 2 |(m : ℚ) * 2 ^ u| < 2 ^ (u + 24) := by
      calc (2 : ℚ) ^ Int.log 2 |(m : ℚ) * 2 ^ u| ≤ |(m : ℚ)| * 2 ^ u := by rw [← habs]; exact hlo
        _ < 2 ^ (24 : ℕ) * 2 ^ u := by
          exact mul_lt_mul_of_pos_right hm' (two_zpow_pos u)
        _ = 2 ^ (u + 24) := by rw [zpow_add₀ (by norm_num), mul_comm]; norm_num
    have hlog : Int.log 2 |(m : ℚ) * 2 ^ u| < u + 24 := two_zpow_lt_iff.mp hlt
    have hle : ulpExp ((m : ℚ) * 2 ^ u) ≤ u := by
      simp only [ulpExp]
      exact max_le (by omega) hu
    have hd : 0 ≤ u - ulpExp ((m : ℚ) * 2 ^ u) := by omega
    have hscaled : (m : ℚ) * 2 ^ u / 2 ^ ulpExp ((m : ℚ) * 2 ^ u) =
        ((m * (2 : ℤ) ^ (u - ulpExp ((m : ℚ) * 2 ^ u)).toNat : ℤ) : ℚ) := by
      rw [mul_div_assoc, ← two_zpow_sub, two_zpow_nonneg_cast hd]
      push_cast
      ring
    simp only [roundF32]
    rw [hscaled, rne_intCast, ← hscaled]
    exact div_mul_cancel₀ _ (two_zpow_pos _).ne'

theorem roundF32_one : roundF32 1 = 1 := by
  have h := roundF32_of_repr 1 0 (by norm_num) (by norm_num)
  simpa using h

/-- Rounding is idempotent: a rounded value is a float32. -/
theorem roundF32_idem (q : ℚ) : roundF32 (roundF32 q) = roundF32 q := by
  have hM := rne_scaled_abs_le q
  rcases hM.lt_or_eq with hlt | heq
  · exact roundF32_of_repr _ _ hlt (ulpExp_ge q)
  · have hu := ulpExp_ge q
    have hcases : roundNearestEven (q / 2 ^ ulpExp q) = 2 ^ (24 : ℕ) ∨
        roundNearestEven (q / 2 ^ ulpExp q) = -(2 ^ (24 : ℕ)) := by
      rcases abs_cases (roundNearestEven (q / 2 ^ ulpExp q)) with ⟨h, -⟩ | ⟨h, -⟩
      · left; omega
      · right; omega
    rcases hcases with h | h
    · have hr : roundF32 q = ((2 ^ (23 : ℕ) : ℤ) : ℚ) * 2 ^ (ulpExp q + 1) := by
        simp only [roundF32, h]
        rw [zpow_add₀ (by norm_num)]
        push_cast
        ring
      rw [hr]
      exact roundF32_of_repr _ _ (by norm_num) (by omega)
    · have hr : roundF32 q = ((-(2 ^ (23 : ℕ)) : ℤ) : ℚ) * 2 ^ (ulpExp q + 1) := by
        simp only [roundF32, h]
        rw [zpow_add₀ (by norm_num)]
        push_cast
        ring
      rw [hr]
      exact roundF32_of_repr _ _ (by norm_num) (by omega)


theorem roundF32_nonneg {q : ℚ} (hq : 0 ≤ q) : 0 ≤ roundF32 q := by
  have h : roundNearestEven ((0 : ℤ) : ℚ) ≤ roundNearestEven (q / 2 ^ ulpExp q) :=
    rne_mono (by push_cast; exact div_nonneg hq (two_zpow_pos _).le)
  rw [rne_intCast] at h
  simp only [roundF32]
  exact mul_nonneg (by exact_mod_cast h) (two_zpow_pos _).le

/-- A bound `2^b` that is a multiple of the spacing at `p` is not crossed by rounding. -/
theorem roundF32_le_pow {p : ℚ} {b : ℤ} (hp : p ≤ 2 ^ b) (hb : ulpExp p ≤ b) :
    roundF32 p ≤ 2 ^ b := by
  have hd : 0 ≤ b - ulpExp p := by omega
  have hs : p / 2 ^ ulpExp p ≤ ((((2 : ℤ) ^ (b - ulpExp p).toNat : ℤ)) : ℚ) := by
    rw [← two_zpow_nonneg_cast hd, two_zpow_sub]
    exact div_le_div_of_nonneg_right hp (two_zpow_pos _).le
  have h := rne_mono hs
  rw [rne_intCast] at h
  have h' : (roundNearestEven (p / 2 ^ ulpExp p) : ℚ) ≤ 2 ^ (b - ulpExp p) := by
    rw [two_zpow_nonneg_cast hd]; exact_mod_cast h
  simp only [roundF32]
  calc (roundNearestEven (p / 2 ^ ulpExp p) : ℚ) * 2 ^ ulpExp p
      ≤ 2 ^ (b - ulpExp p) * 2 ^ ulpExp p := mul_le_mul_of_nonneg_right h' (two_zpow_pos _).le
    _ = 2 ^ b := by rw [two_zpow_sub]; exact div_mul_cancel₀ _ (two_zpow_pos _).ne'

theorem pow_le_roundF32 {q : ℚ} {b : ℤ} (hq : 2 ^ b ≤ q) (hb : ulpExp q ≤ b) :
    2 ^ b ≤ roundF32 q := by
  have hd : 0 ≤ b - ulpExp q := by omega
  have hs : ((((2 : ℤ) ^ (b - ulpExp q).toNat : ℤ)) : ℚ) ≤ q / 2 ^ ulpExp q := by
    rw [← two_zpow_nonneg_cast hd, two_zpow_sub]
    exact div_le_div_of_nonneg_right hq (two_zpow_pos _).le
  have h := rne_mono hs
  rw [rne_intCast] at h
  have h' : (2 : ℚ) ^ (b - ulpExp q) ≤ (roundNearestEven (q / 2 ^ ulpExp q) : ℚ) := by
    rw [two_zpow_nonneg_cast hd]; exact_mod_cast h
  simp only [roundF32]
  calc (2 : ℚ) ^ b = 2 ^ (b - ulpExp q) * 2 ^ ulpExp q := by
        rw [two_zpow_sub]; exact (div_mul_cancel₀ _ (two_zpow_pos _).ne').symm
    _ ≤ (roundNearestEven (q / 2 ^ ulpExp q) : ℚ) * 2 ^ ulpExp q :=
        mul_le_mul_of_nonneg_right h' (two_zpow_pos _).le

/-- Rounding to float32 is monotone on the non-negative rationals. -/
theorem roundF32_mono {p q : ℚ} (hp : 0 ≤ p) (hpq : p ≤ q) : roundF32 p ≤ roundF32 q := by
  rcases hp.eq_or_lt with rfl | hp0
  · rw [roundF32_zero]; exact roundF32_nonneg hpq
  · have hq0 : 0 < q := lt_of_lt_of_le hp0 hpq
    have hlog : Int.log 2 |p| ≤ Int.log 2 |q| := by
      rw [abs_of_pos hp0, abs_of_pos hq0]
      exact Int.log_mono_right hp0 hpq
    have hu : ulpExp p ≤ ulpExp q := max_le_max (by omega) le_rfl
    rcases hu.eq_or_lt with heq | hlt
    · simp only [roundF32, heq]
      have h := rne_mono (div_le_div_of_nonneg_right hpq (two_zpow_pos (ulpExp q)).le)
      exact mul_le_mul_of_nonneg_right (by exact_mod_cast h) (two_zpow_pos _).le
    · have hup := ulpExp_ge p
      have huq : ulpExp q = Int.log 2 |q| - 23 := by
        simp only [ulpExp] at hlt hup ⊢
        rcases max_cases (Int.log 2 |q| - 23) (-149) with ⟨h, -⟩ | ⟨h, -⟩
        · exact h
        · rw [h] at hlt; omega
      have hupl := ulpExp_ge_log p
      have hphi : p < (2 : ℚ) ^ (Int.log 2 |p| + 1) :=
        lt_of_le_of_lt (le_abs_self p) (log_two_bounds (abs_pos.mpr hp0.ne')).2
      have hqlo : (2 : ℚ) ^ Int.log 2 |q| ≤ q :=
        (log_two_bounds (abs_pos.mpr hq0.ne')).1.trans (le_of_eq (abs_of_pos hq0))
      have hplt : Int.log 2 |p| + 1 ≤ Int.log 2 |q| := by omega
      have h1 : roundF32 p ≤ 2 ^ Int.log 2 |q| :=
        roundF32_le_pow (le_trans hphi.le (two_zpow_le hplt)) (by omega)
      have h2 : (2 : ℚ) ^ Int.log 2 |q| ≤ roundF32 q := pow_le_roundF32 hqlo (by omega)
      exact le_trans h1 h2

/-- The rounding of a quotient of `[0, 1]` is finite and lies in `[0, 1]`. -/
theorem roundF32_unit {q : ℚ} (h0 : 0 ≤ q) (h1 : q ≤ 1) : 0 ≤ roundF32 q ∧ roundF32 q ≤ 1 :=
  ⟨roundF32_nonneg h0, by simpa [roundF32_one] using roundF32_mono h0 h1⟩

/-- The value of `roundF32 q` once the binade of `q` is known. -/
theorem roundF32_eval (q : ℚ) (e : ℤ) (hq : q ≠ 0) (h1 : (2 : ℚ) ^ e ≤ |q|)
    (h2 : |q| < (2 : ℚ) ^ (e + 1)) :
    roundF32 q = (roundNearestEven (q / 2 ^ max (e - 23) (-149)) : ℚ) * 2 ^ max (e - 23) (-149) := by
  have hlog : Int.log 2 |q| = e := log_two_eq (abs_pos.mpr hq) h1 h2
  simp only [roundF32, ulpExp, hlog]

/-! ## Float32 operations on finite values -/

theorem F32.mul_fin (a b : ℚ) : (F32.fin a).mul (F32.fin b) = F32.ofRat (a * b) := rfl

theorem F32.add_fin (a b : ℚ) : (F32.fin a).add (F32.fin b) = F32.ofRat (a + b) := rfl

theorem F32.sub_fin (a b : ℚ) : (F32.fin a).sub (F32.fin b) = F32.ofRat (a - b) := by
  simp only [F32.sub, F32.neg, F32.add, sub_eq_add_neg]

theorem F32.floor_fin (a : ℚ) : (F32.fin a).floor = F32.fin ((⌊a⌋ : ℤ) : ℚ) := rfl

theorem F32.div_fin (a b : ℚ) (hb : b ≠ 0) : (F32.fin a).div (F32.fin b) = F32.ofRat (a / b) := by
  simp only [F32.div, hb, if_false]

theorem F32.lt_fin (a b : ℚ) : (F32.fin a).lt (F32.fin b) = decide (a < b) := rfl

theorem F32.ofRat_eq_fin {q r : ℚ} (h : roundF32 q = r) (hr : |r| < 2 ^ (128 : ℕ)) :
    F32.ofRat q = F32.fin r := by
  simp only [F32.ofRat, h, not_le.mpr hr, if_false]

theorem F32.ofRat_zero : F32.ofRat 0 = F32.fin 0 :=
  F32.ofRat_eq_fin roundF32_zero (by norm_num)

theorem F32.eq_of_ofRat_eq_fin {q r : ℚ} (h : F32.ofRat q = F32.fin r) : r = roundF32 q := by
  simp only [F32.ofRat] at h
  split_ifs at h
  exact (F32.fin.inj h).symm

theorem F32.add_eq_fin {a b : F32} {t : ℚ} (h : a.add b = F32.fin t) :
    ∃ a' b', a = F32.fin a' ∧ b = F32.fin b' ∧ t = roundF32 (a' + b') := by
  cases a with
  | fin a' =>
    cases b with
    | fin b' => exact ⟨a', b', rfl, rfl, F32.eq_of_ofRat_eq_fin h⟩
    | inf s => simp [F32.add] at h
    | nan => simp [F32.add] at h
  | inf s =>
    cases b with
    | fin b' => simp [F32.add] at h
    | inf t' =>
      simp only [F32.add] at h
      split_ifs at h
    | nan => simp [F32.add] at h
  | nan => cases b <;> simp [F32.add] at h

/-! ## UV projection in float32 -/

theorem roundF32_neg_two_pow_thirty : roundF32 (-(1 / 2 ^ 30)) = -(1 / 2 ^ 30) := by
  have h := roundF32_of_repr (-1) (-30) (by norm_num) (by norm_num)
  norm_num at h ⊢
  exact h

theorem roundF32_below_one : roundF32 (1 - 1 / 2 ^ 30) = 1 := by
  rw [roundF32_eval (1 - 1 / 2 ^ 30) (-1) (by norm_num) (by norm_num [abs_of_pos])
    (by norm_num [abs_of_pos])]
  norm_num [roundNearestEven]

theorem axisLocals_initDefault :
    axisLocals (init refIntrinsics whiteTexture whiteTexture whiteTexture {}) 0
      = ⟨1, ⟨0, 0⟩, 1, 0⟩ := by
  norm_num [axisLocals, init, refIntrinsics, angleToRad, Float2.add, Float2.divInt2,
    whiteTexture, constTexture]

theorem computeUVsF32_identity (k : Kernel) (x y : ℚ) (axis : ℤ)
    (hloc : axisLocals k axis = ⟨1, ⟨0, 0⟩, 1, 0⟩)
    (hx : roundF32 x = x ∧ |x| < 2 ^ (128 : ℕ)) (hy : roundF32 y = y ∧ |y| < 2 ^ (128 : ℕ)) :
    computeUVsF32 k x y axis =
      ⟨F32.ofRat (x - (⌊x⌋ : ℤ)), F32.ofRat (y - (⌊y⌋ : ℤ))⟩ := by
  have ex : F32.ofRat x = F32.fin x := F32.ofRat_eq_fin hx.1 hx.2
  have ey : F32.ofRat y = F32.fin y := F32.ofRat_eq_fin hy.1 hy.2
  simp only [computeUVsF32, hloc, F32.mul_fin, F32.sub_fin, F32.add_fin, F32.floor_fin,
    mul_one, mul_zero, sub_zero, add_zero, zero_add, F32.ofRat_zero, ex, ey]

/-- C1: evaluation of `computeUVs` in float32. With the identity transform (scale `1`, offset
`0`, cosine `1`, sine `0`) and finite float32 position scalars, the returned UV is the float32
rounding of the exact fold `(x - floor x, y - floor y)`. At the failing input, the kernel
initialised from the default parameters, `x = -2^-30` (a float32) and `y = 0` on axis X, the
exact fold is `1 - 2^-30`, below `1`, but the float32 subtraction `-2^-30 - (-1)` rounds to
exactly `1`: the returned `u` is `1` and `u < 1` is false. -/
theorem computeUVs_float32_reaches_one (k : Kernel) (x y : ℚ) (axis : ℤ)
    (hloc : axisLocals k axis = ⟨1, ⟨0, 0⟩, 1, 0⟩)
    (hx : roundF32 x = x ∧ |x| < 2 ^ (128 : ℕ)) (hy : roundF32 y = y ∧ |y| < 2 ^ (128 : ℕ)) :
    computeUVsF32 k x y axis = ⟨F32.ofRat (x - (⌊x⌋ : ℤ)), F32.ofRat (y - (⌊y⌋ : ℤ))⟩ ∧
    (roundF32 (-(1 / 2 ^ 30)) = -(1 / 2 ^ 30) ∧
      computeUVs (init refIntrinsics whiteTexture whiteTexture whiteTexture {})
        (-(1 / 2 ^ 30)) 0 0 = ⟨1 - 1 / 2 ^ 30, 0⟩ ∧
      computeUVsF32 (init refIntrinsics whiteTexture whiteTexture whiteTexture {})
        (-(1 / 2 ^ 30)) 0 0 = ⟨F32.fin 1, F32.fin 0⟩ ∧
      (computeUVsF32 (init refIntrinsics whiteTexture whiteTexture whiteTexture {})
        (-(1 / 2 ^ 30)) 0 0).x.lt (F32.fin 1) = false) := by
  have hfl : ((⌊(-(1 / 2 ^ 30) : ℚ)⌋ : ℤ) : ℚ) = -1 := by norm_num
  have hone : F32.ofRat (-(1 / 2 ^ 30) - -1) = F32.fin 1 := by
    have e : (-(1 / 2 ^ 30) - -1 : ℚ) = 1 - 1 / 2 ^ 30 := by ring
    rw [e]
    exact F32.ofRat_eq_fin roundF32_below_one (by norm_num)
  have hF : computeUVsF32 (init refIntrinsics whiteTexture whiteTexture whiteTexture {})
      (-(1 / 2 ^ 30)) 0 0 = ⟨F32.fin 1, F32.fin 0⟩ := by
    rw [computeUVsF32_identity _ _ _ _ axisLocals_initDefault
      ⟨roundF32_neg_two_pow_thirty, by norm_num [abs_of_pos]⟩ ⟨roundF32_zero, by norm_num⟩]
    simp only [hfl, hone, Int.floor_zero, Int.cast_zero, sub_zero, F32.ofRat_zero]
  refine ⟨computeUVsF32_identity k x y axis hloc hx hy, roundF32_neg_two_pow_thirty, ?_, hF, ?_⟩
  · simp only [computeUVs, axisLocals_initDefault, Float2.sub, mul_one, mul_zero, sub_zero,
      add_zero, zero_mul, hfl, Int.floor_zero, Int.cast_zero]
    norm_num
  · rw [hF, F32.lt_fin]
    norm_num

/-- Witness of `computeUVs_float32_reaches_one`: the failing input itself. -/
theorem computeUVs_float32_reaches_one_witness :
    computeUVsF32 (init refIntrinsics whiteTexture whiteTexture whiteTexture {})
        (-(1 / 2 ^ 30)) 0 0 =
      ⟨F32.ofRat (-(1 / 2 ^ 30) - (⌊(-(1 / 2 ^ 30) : ℚ)⌋ : ℤ)),
        F32.ofRat (0 - (⌊(0 : ℚ)⌋ : ℤ))⟩ :=
  (computeUVs_float32_reaches_one (init refIntrinsics whiteTexture whiteTexture whiteTexture {})
    (-(1 / 2 ^ 30)) 0 0 axisLocals_initDefault
    ⟨roundF32_neg_two_pow_thirty, by norm_num [abs_of_pos]⟩ ⟨roundF32_zero, by norm_num⟩).1

/-! ## Float32 rounding: error bounds -/

theorem roundF32_err (q : ℚ) : |roundF32 q - q| ≤ 2 ^ ulpExp q / 2 := by
  have h := rne_err (q / 2 ^ ulpExp q)
  have hq : roundF32 q - q =
      ((roundNearestEven (q / 2 ^ ulpExp q) : ℚ) - q / 2 ^ ulpExp q) * 2 ^ ulpExp q := by
    simp only [roundF32]
    rw [sub_mul, div_mul_cancel₀ _ (two_zpow_pos _).ne']
  rw [hq, abs_mul, abs_of_pos (two_zpow_pos _)]
  calc |(roundNearestEven (q / 2 ^ ulpExp q) : ℚ) - q / 2 ^ ulpExp q| * 2 ^ ulpExp q
      ≤ 1 / 2 * 2 ^ ulpExp q := mul_le_mul_of_nonneg_right h (two_zpow_pos _).le
    _ = 2 ^ ulpExp q / 2 := by ring

/-- On `[0, 1]` rounding raises a value by at most `2^-25`. -/
theorem roundF32_le_add {x : ℚ} (h0 : 0 ≤ x) (h1 : x ≤ 1) : roundF32 x ≤ x + 1 / 2 ^ 25 := by
  rcases h1.eq_or_lt with rfl | hlt
  · rw [roundF32_one]; norm_num
  · rcases h0.eq_or_lt with rfl | hpos
    · rw [roundF32_zero]; norm_num
    · have hlog : Int.log 2 |x| < 0 := by
        rw [abs_of_pos hpos, ← Int.lt_zpow_iff_log_lt (by norm_num) hpos]
        simpa using hlt
      have hu : ulpExp x ≤ -24 := max_le (by omega) (by norm_num)
      have herr := (abs_le.mp (roundF32_err x)).2
      have hp : (2 : ℚ) ^ ulpExp x ≤ 2 ^ (-24 : ℤ) := two_zpow_le hu
      have h24 : (2 : ℚ) ^ (-24 : ℤ) = 1 / 2 ^ 24 := by norm_num
      rw [h24] at hp
      have : (1 : ℚ) / 2 ^ 24 / 2 = 1 / 2 ^ 25 := by norm_num
      linarith

/-- A float32 is an integer multiple of `2^-149`. -/
theorem float_multiple {a : ℚ} (ha : roundF32 a = a) : ∃ n : ℤ, a = (n : ℚ) * 2 ^ (-149 : ℤ) := by
  have hd : 0 ≤ ulpExp a - (-149) := by have := ulpExp_ge a; omega
  refine ⟨roundNearestEven (a / 2 ^ ulpExp a) * 2 ^ (ulpExp a - (-149)).toNat, ?_⟩
  have h : (2 : ℚ) ^ ulpExp a = 2 ^ (ulpExp a - (-149)) * 2 ^ (-149 : ℤ) := by
    rw [two_zpow_sub]; exact (div_mul_cancel₀ _ (two_zpow_pos _).ne').symm
  have hcast : (((roundNearestEven (a / 2 ^ ulpExp a) * 2 ^ (ulpExp a - (-149)).toNat : ℤ)) : ℚ)
      = (roundNearestEven (a / 2 ^ ulpExp a) : ℚ) * 2 ^ (ulpExp a - (-149)) := by
    rw [two_zpow_nonneg_cast hd]
    push_cast
    ring
  have ha' : (roundNearestEven (a / 2 ^ ulpExp a) : ℚ) * 2 ^ ulpExp a = a := ha
  rw [hcast, mul_assoc, ← h]
  exact ha'.symm

/-- The float32 sum of two float32 numbers with a non-negative sum loses at most the relative
amount `2^-24`. -/
theorem roundF32_sum_lower {a b : ℚ} (ha : roundF32 a = a) (hb : roundF32 b = b)
    (hab : 0 ≤ a + b) : (a + b) * (1 - 1 / 2 ^ 24) ≤ roundF32 (a + b) := by
  rcases hab.eq_or_lt with h0 | hpos
  · rw [← h0, roundF32_zero]; norm_num
  · have hbounds := log_two_bounds (abs_pos.mpr hpos.ne')
    rw [abs_of_pos hpos] at hbounds
    rcases le_or_lt (-149) (Int.log 2 (a + b) - 23) with hn | hs
    · have hu : ulpExp (a + b) = Int.log 2 (a + b) - 23 := by
        simp only [ulpExp, abs_of_pos hpos]
        exact max_eq_left hn
      have herr := (abs_le.mp (roundF32_err (a + b))).1
      rw [hu, two_zpow_sub] at herr
      have h23 : (2 : ℚ) ^ (23 : ℤ) = 2 ^ 23 := by norm_num
      rw [h23] at herr
      have hle : (2 : ℚ) ^ Int.log 2 (a + b) / 2 ^ 23 / 2 ≤ (a + b) * (1 / 2 ^ 24) := by
        have := hbounds.1
        have e : (2 : ℚ) ^ Int.log 2 (a + b) / 2 ^ 23 / 2 =
            2 ^ Int.log 2 (a + b) * (1 / 2 ^ 24) := by ring
        rw [e]
        exact mul_le_mul_of_nonneg_right this (by norm_num)
      linarith
    · have hu : ulpExp (a + b) = -149 := by
        simp only [ulpExp, abs_of_pos hpos]
        exact max_eq_right hs.le
      obtain ⟨na, hna⟩ := float_multiple ha
      obtain ⟨nb, hnb⟩ := float_multiple hb
      have hsum : (a + b) / 2 ^ (-149 : ℤ) = ((na + nb : ℤ) : ℚ) := by
        rw [hna, hnb]
        push_cast
        field_simp
      have hR : roundF32 (a + b) = a + b := by
        simp only [roundF32, hu]
        rw [hsum, rne_intCast, ← hsum]
        exact div_mul_cancel₀ _ (two_zpow_pos _).ne'
      rw [hR]
      nlinarith
/-! ## Weights in float32 -/

theorem rawWeightsF32_of_total (pow32 : ℚ → ℚ → F32) (k : Kernel) (normal : Float4) (T : ℚ)
    (hpow : ∀ x e r, 0 ≤ x → pow32 x e = F32.fin r → 0 ≤ r ∧ roundF32 r = r)
    (hT : totalF32 (rawWeightsF32 pow32 k normal.fabs) = F32.fin T) :
    ∃ rx ry rz : ℚ, rawWeightsF32 pow32 k normal.fabs = ⟨F32.fin rx, F32.fin ry, F32.fin rz⟩ ∧
      (0 ≤ rx ∧ 0 ≤ ry ∧ 0 ≤ rz) ∧ (rx ≤ T ∧ ry ≤ T ∧ rz ≤ T) ∧
      (rx + ry + rz) * (1 - 1 / 2 ^ 24) ^ 2 ≤ T := by
  simp only [totalF32, rawWeightsF32, Float4.fabs] at hT
  obtain ⟨A, rz, hA, hz, hTeq⟩ := F32.add_eq_fin hT
  obtain ⟨rx, ry, hx, hy, hAeq⟩ := F32.add_eq_fin hA
  obtain ⟨nx, fx⟩ := hpow _ _ _ (abs_nonneg normal.x) hx
  obtain ⟨ny, fy⟩ := hpow _ _ _ (abs_nonneg normal.y) hy
  obtain ⟨nz, fz⟩ := hpow _ _ _ (abs_nonneg normal.z) hz
  have hA0 : 0 ≤ A := by rw [hAeq]; exact roundF32_nonneg (by linarith)
  have fA : roundF32 A = A := by rw [hAeq]; exact roundF32_idem _
  have hxA : rx ≤ A := by
    have := roundF32_mono nx (by linarith : rx ≤ rx + ry)
    rw [fx, ← hAeq] at this; exact this
  have hyA : ry ≤ A := by
    have := roundF32_mono ny (by linarith : ry ≤ rx + ry)
    rw [fy, ← hAeq] at this; exact this
  have hAT : A ≤ T := by
    have := roundF32_mono hA0 (by linarith : A ≤ A + rz)
    rw [fA, ← hTeq] at this; exact this
  have hzT : rz ≤ T := by
    have := roundF32_mono nz (by linarith : rz ≤ A + rz)
    rw [fz, ← hTeq] at this; exact this
  have hlowA : (rx + ry) * (1 - 1 / 2 ^ 24) ≤ A := by
    rw [hAeq]; exact roundF32_sum_lower fx fy (by linarith)
  have hlowT : (A + rz) * (1 - 1 / 2 ^ 24) ≤ T := by
    rw [hTeq]; exact roundF32_sum_lower fA fz (by linarith)
  refine ⟨rx, ry, rz, ?_, ⟨nx, ny, nz⟩, ⟨le_trans hxA hAT, le_trans hyA hAT, hzT⟩, ?_⟩
  · simp only [rawWeightsF32, Float4.fabs, hx, hy, hz]
  · have he : (0 : ℚ) ≤ 1 - 1 / 2 ^ 24 := by norm_num
    have he1 : (1 : ℚ) - 1 / 2 ^ 24 ≤ 1 := by norm_num
    have h1 : ((rx + ry) * (1 - 1 / 2 ^ 24) + rz * (1 - 1 / 2 ^ 24)) * (1 - 1 / 2 ^ 24)
        ≤ (A + rz) * (1 - 1 / 2 ^ 24) := by
      apply mul_le_mul_of_nonneg_right _ he
      have : rz * (1 - 1 / 2 ^ 24) ≤ rz := by nlinarith
      linarith
    have h2 : (rx + ry + rz) * (1 - 1 / 2 ^ 24) ^ 2 =
        ((rx + ry) * (1 - 1 / 2 ^ 24) + rz * (1 - 1 / 2 ^ 24)) * (1 - 1 / 2 ^ 24) := by ring
    rw [h2]
    exact le_trans h1 hlowT

theorem F32.div_fin_unit {r T : ℚ} (h0 : 0 ≤ r) (hT : 0 < T) (hle : r ≤ T) :
    (F32.fin r).div (F32.fin T) = F32.fin (roundF32 (r / T)) ∧
      0 ≤ roundF32 (r / T) ∧ roundF32 (r / T) ≤ 1 ∧ roundF32 (r / T) ≤ r / T + 1 / 2 ^ 25 := by
  have hq0 : 0 ≤ r / T := div_nonneg h0 hT.le
  have hq1 : r / T ≤ 1 := (div_le_one hT).mpr hle
  obtain ⟨a, b⟩ := roundF32_unit hq0 hq1
  refine ⟨?_, a, b, roundF32_le_add hq0 hq1⟩
  rw [F32.div_fin _ _ hT.ne']
  exact F32.ofRat_eq_fin rfl (by rw [abs_of_nonneg a]; exact lt_of_le_of_lt b (by norm_num))

theorem roundF32_threshold : roundF32 (1 / 10000) = 13743895 / 2 ^ 37 := by
  rw [roundF32_eval (1 / 10000) (-14) (by norm_num) (by norm_num [abs_of_pos])
    (by norm_num [abs_of_pos])]
  norm_num [roundNearestEven]

theorem refPow32_spec (x e r : ℚ) (hx : 0 ≤ x) (h : refPow32 x e = F32.fin r) :
    0 ≤ r ∧ roundF32 r = r := by
  simp only [refPow32] at h
  split_ifs at h with h1 h2 h3
  · rw [← F32.fin.inj h]; exact ⟨by norm_num, roundF32_one⟩
  · rw [← F32.fin.inj h]; exact ⟨le_refl _, roundF32_zero⟩
  · have hr := F32.eq_of_ofRat_eq_fin h
    rw [hr]
    exact ⟨roundF32_nonneg (zpow_nonneg hx _), roundF32_idem _⟩

theorem F32.ofRat_repr (m u : ℤ) (hm : |m| < 2 ^ (24 : ℕ)) (hu : -149 ≤ u)
    (hs : |(m : ℚ) * 2 ^ u| < 2 ^ (128 : ℕ)) :
    F32.ofRat ((m : ℚ) * 2 ^ u) = F32.fin ((m : ℚ) * 2 ^ u) :=
  F32.ofRat_eq_fin (roundF32_of_repr m u hm hu) hs

theorem F32.ofRat_natCast (n : ℕ) (hn : n < 2 ^ 24) : F32.ofRat (n : ℚ) = F32.fin (n : ℚ) := by
  have h := F32.ofRat_repr (n : ℤ) 0 (by rw [abs_of_nonneg (by positivity)]; exact_mod_cast hn)
    (by norm_num) (by
      simp only [zpow_zero, mul_one, Int.cast_natCast]
      rw [abs_of_nonneg (by positivity)]
      calc (n : ℚ) < 2 ^ 24 := by exact_mod_cast hn
        _ < 2 ^ 128 := by norm_num)
  simpa using h

theorem cullF32_fin (thr a : ℚ) :
    (if (F32.fin a).lt (F32.fin thr) then F32.fin 0 else F32.fin a) =
      F32.fin (if a < thr then 0 else a) := by
  rw [F32.lt_fin]
  by_cases h : a < thr
  · simp [h]
  · simp [h]

theorem cull_bounds (thr a : ℚ) (h0 : 0 ≤ a) :
    0 ≤ (if a < thr then 0 else a) ∧ (if a < thr then 0 else a) ≤ a := by
  split_ifs
  · exact ⟨le_refl _, h0⟩
  · exact ⟨h0, le_refl _⟩

theorem computeWeightsF32_example_below_one :
    computeWeightsF32 refPow32 initDefaultF32 ⟨65535, 1, 0, 0⟩ =
      ⟨F32.fin (65535 / 65536), F32.fin 0, F32.fin 0⟩ := by
  have hthr : initDefaultF32.kWeightThreshold = 13743895 / 2 ^ 37 := roundF32_threshold
  have hexp : initDefaultF32.blendExponent = 1 := rfl
  have p1 : refPow32 65535 1 = F32.fin 65535 := by
    have h := F32.ofRat_natCast 65535 (by norm_num)
    norm_num at h
    simp [refPow32, h]
  have p2 : refPow32 1 1 = F32.fin 1 := by
    have h := F32.ofRat_natCast 1 (by norm_num)
    norm_num at h
    simp [refPow32, h]
  have p3 : refPow32 0 1 = F32.fin 0 := by simp [refPow32]
  have s1 : F32.ofRat (65535 + 1) = F32.fin 65536 := by
    have h := F32.ofRat_natCast 65536 (by norm_num)
    norm_num at h ⊢
    exact h
  have s2 : F32.ofRat (65536 + 0) = F32.fin 65536 := by
    have h := F32.ofRat_natCast 65536 (by norm_num)
    norm_num at h ⊢
    exact h
  have d1 : F32.ofRat (65535 / 65536) = F32.fin (65535 / 65536) := by
    have h := F32.ofRat_repr 65535 (-16) (by norm_num) (by norm_num) (by norm_num [abs_of_pos])
    norm_num at h ⊢
    exact h
  have d2 : F32.ofRat (1 / 65536) = F32.fin (1 / 65536) := by
    have h := F32.ofRat_repr 1 (-16) (by norm_num) (by norm_num) (by norm_num [abs_of_pos])
    norm_num at h ⊢
    exact h
  have hz : ¬ (|(65535 : ℚ)| = 0 ∧ |(1 : ℚ)| = 0 ∧ |(0 : ℚ)| = 0) := by norm_num
  simp only [computeWeightsF32, Float4.fabs, hz, if_false, rawWeightsF32, normalizeWeightsF32,
    totalF32, cullWeightsF32, hexp, hthr]
  rw [show |(65535 : ℚ)| = 65535 by norm_num, show |(1 : ℚ)| = 1 by norm_num,
    show |(0 : ℚ)| = 0 by norm_num, p1, p2, p3]
  simp only [F32.add_fin, s1, s2, F32.div_fin _ _ (by norm_num : (65536 : ℚ) ≠ 0), d1, d2,
    zero_div, F32.ofRat_zero, F32.lt_fin]
  norm_num

/-- C3, amended: with the threshold that `init` stores (the float32 value of `0.0001f`,
`13743895 / 2^37`, slightly below `1e-4`) and a library `pow` whose finite results on a
non-negative base are non-negative float32 numbers: for the all-zero normal `computeWeights`
returns exactly `(0, 0, 0)`; for every other normal whose raw weights have a finite, positive
float32 sum, each returned weight is exactly `0` when its normalized value (the float32
quotient) is below the stored threshold and equals the normalized value otherwise, each returned
weight lies in `[0, 1]`, and the returned triple sums to at most `1 + 2^-22`; for the normal
`(65535, 1, 0)` it sums to `65535 / 65536`, strictly less than `1`. -/
theorem computeWeightsF32_threshold (pow32 : ℚ → ℚ → F32) (k : Kernel) (normal : Float4)
    (hpow : ∀ x e r, 0 ≤ x → pow32 x e = F32.fin r → 0 ≤ r ∧ roundF32 r = r)
    (hthr : k.kWeightThreshold = roundF32 (1 / 10000)) :
    (k.kWeightThreshold = 13743895 / 2 ^ 37 ∧ k.kWeightThreshold < 1 / 10000) ∧
    (normal.x = 0 ∧ normal.y = 0 ∧ normal.z = 0 →
      computeWeightsF32 pow32 k normal = ⟨F32.fin 0, F32.fin 0, F32.fin 0⟩) ∧
    (∀ T : ℚ, (normal.x ≠ 0 ∨ normal.y ≠ 0 ∨ normal.z ≠ 0) →
      totalF32 (rawWeightsF32 pow32 k normal.fabs) = F32.fin T → 0 < T →
      ∃ nw w : Float3,
        normalizeWeightsF32 (rawWeightsF32 pow32 k normal.fabs) =
          ⟨F32.fin nw.x, F32.fin nw.y, F32.fin nw.z⟩ ∧
        computeWeightsF32 pow32 k normal = ⟨F32.fin w.x, F32.fin w.y, F32.fin w.z⟩ ∧
        w.x = (if nw.x < k.kWeightThreshold then 0 else nw.x) ∧
        w.y = (if nw.y < k.kWeightThreshold then 0 else nw.y) ∧
        w.z = (if nw.z < k.kWeightThreshold then 0 else nw.z) ∧
        (0 ≤ w.x ∧ w.x ≤ 1) ∧ (0 ≤ w.y ∧ w.y ≤ 1) ∧ (0 ≤ w.z ∧ w.z ≤ 1) ∧
        w.x + w.y + w.z ≤ 1 + 1 / 2 ^ 22) ∧
    (computeWeightsF32 refPow32 initDefaultF32 ⟨65535, 1, 0, 0⟩ =
        ⟨F32.fin (65535 / 65536), F32.fin 0, F32.fin 0⟩ ∧
      (65535 / 65536 + 0 + 0 : ℚ) < 1) := by
  refine ⟨⟨hthr.trans roundF32_threshold, ?_⟩, ?_, ?_,
    computeWeightsF32_example_below_one, by norm_num⟩
  · rw [hthr, roundF32_threshold]; norm_num
  · intro hz
    simp only [computeWeightsF32, (fabs_eq_zero_iff normal).mpr hz, and_self, if_true]
  · intro T hne hT hTpos
    obtain ⟨rx, ry, rz, hraw, ⟨nx, ny, nz⟩, ⟨lx, ly, lz⟩, hlow⟩ :=
      rawWeightsF32_of_total pow32 k normal T hpow hT
    rw [hraw] at hT
    obtain ⟨dx, ax, bx, cx⟩ := F32.div_fin_unit nx hTpos lx
    obtain ⟨dy, ay, bY, cy⟩ := F32.div_fin_unit ny hTpos ly
    obtain ⟨dz, az, bz, cz⟩ := F32.div_fin_unit nz hTpos lz
    have hnz : ¬ (normal.fabs.x = 0 ∧ normal.fabs.y = 0 ∧ normal.fabs.z = 0) := by
      rw [fabs_eq_zero_iff]
      intro h
      rcases hne with h1 | h1 | h1
      · exact h1 h.1
      · exact h1 h.2.1
      · exact h1 h.2.2
    have hnorm : normalizeWeightsF32 (rawWeightsF32 pow32 k normal.fabs) =
        ⟨F32.fin (roundF32 (rx / T)), F32.fin (roundF32 (ry / T)),
          F32.fin (roundF32 (rz / T))⟩ := by
      rw [hraw]
      simp only [normalizeWeightsF32, hT, dx, dy, dz]
    obtain ⟨ex, fx⟩ := cull_bounds k.kWeightThreshold _ ax
    obtain ⟨ey, fy⟩ := cull_bounds k.kWeightThreshold _ ay
    obtain ⟨ez, fz⟩ := cull_bounds k.kWeightThreshold _ az
    refine ⟨⟨roundF32 (rx / T), roundF32 (ry / T), roundF32 (rz / T)⟩,
      ⟨if roundF32 (rx / T) < k.kWeightThreshold then 0 else roundF32 (rx / T),
        if roundF32 (ry / T) < k.kWeightThreshold then 0 else roundF32 (ry / T),
        if roundF32 (rz / T) < k.kWeightThreshold then 0 else roundF32 (rz / T)⟩,
      hnorm, ?_, rfl, rfl, rfl, ⟨ex, le_trans fx bx⟩, ⟨ey, le_trans fy bY⟩,
      ⟨ez, le_trans fz bz⟩, ?_⟩
    · simp only [computeWeightsF32, hnz, if_false, hnorm, cullWeightsF32, cullF32_fin]
    · have hS : (rx + ry + rz) / T ≤ 1 / (1 - 1 / 2 ^ 24) ^ 2 := by
        rw [div_le_div_iff₀ hTpos (by norm_num)]
        linarith
      have hsplit : rx / T + ry / T + rz / T = (rx + ry + rz) / T := by ring
      have hnum : (1 : ℚ) / (1 - 1 / 2 ^ 24) ^ 2 + 3 / 2 ^ 25 ≤ 1 + 1 / 2 ^ 22 := by norm_num
      show (if roundF32 (rx / T) < k.kWeightThreshold then 0 else roundF32 (rx / T)) +
        (if roundF32 (ry / T) < k.kWeightThreshold then 0 else roundF32 (ry / T)) +
        (if roundF32 (rz / T) < k.kWeightThreshold then 0 else roundF32 (rz / T)) ≤ _
      linarith
theorem roundF32_third : roundF32 (1 / 3) = 11184811 / 2 ^ 25 := by
  rw [roundF32_eval (1 / 3) (-2) (by norm_num) (by norm_num [abs_of_pos])
    (by norm_num [abs_of_pos])]
  norm_num [roundNearestEven]

theorem roundF32_underflow : roundF32 ((1 / 1024) ^ (16 : ℤ)) = 0 := by
  rw [roundF32_eval ((1 / 1024) ^ (16 : ℤ)) (-160) (by norm_num) (by norm_num [abs_of_pos])
    (by norm_num [abs_of_pos])]
  norm_num [roundNearestEven]

theorem roundF32_near_threshold : roundF32 (1677 / 16770001) = 13743895 / 2 ^ 37 := by
  rw [roundF32_eval (1677 / 16770001) (-14) (by norm_num) (by norm_num [abs_of_pos])
    (by norm_num [abs_of_pos])]
  norm_num [roundNearestEven]

theorem roundF32_near_one : roundF32 (16768324 / 16770001) = 8387769 / 2 ^ 23 := by
  rw [roundF32_eval (16768324 / 16770001) (-1) (by norm_num) (by norm_num [abs_of_pos])
    (by norm_num [abs_of_pos])]
  norm_num [roundNearestEven]

theorem computeWeightsF32_pole :
    computeWeightsF32 refPow32 { initDefaultF32 with blendExponent := -2 } ⟨0, 0, 1, 0⟩ =
      ⟨F32.nan, F32.nan, F32.fin 0⟩ := by
  have p0 : refPow32 0 (-2) = F32.inf false := by simp [refPow32]
  have p1 : refPow32 1 (-2) = F32.fin 1 := by
    have h := F32.ofRat_natCast 1 (by norm_num)
    norm_num at h
    simp [refPow32, h]
  have hz : ¬ (|(0 : ℚ)| = 0 ∧ |(0 : ℚ)| = 0 ∧ |(1 : ℚ)| = 0) := by norm_num
  simp only [computeWeightsF32, Float4.fabs, hz, if_false, rawWeightsF32, normalizeWeightsF32,
    totalF32, cullWeightsF32]
  rw [show |(0 : ℚ)| = 0 by norm_num, show |(1 : ℚ)| = 1 by norm_num, p0, p1]
  have hthr : (0 : ℚ) < roundF32 (1 / 10000) := by rw [roundF32_threshold]; norm_num
  simp [F32.add, F32.div, F32.lt, initDefaultF32, hthr]

theorem computeWeightsF32_underflow :
    computeWeightsF32 refPow32 { initDefaultF32 with blendExponent := 16 } ⟨1 / 1024, 0, 0, 0⟩ =
      ⟨F32.nan, F32.nan, F32.nan⟩ := by
  have p0 : refPow32 0 16 = F32.fin 0 := by simp [refPow32]
  have p1 : refPow32 (1 / 1024) 16 = F32.fin 0 := by
    have hv : refPow32 (1 / 1024) 16 = F32.ofRat ((1 / 1024) ^ (16 : ℤ)) := by
      simp [refPow32]
    rw [hv]
    exact F32.ofRat_eq_fin roundF32_underflow (by norm_num)
  have hz : ¬ (|(1 / 1024 : ℚ)| = 0 ∧ |(0 : ℚ)| = 0 ∧ |(0 : ℚ)| = 0) := by norm_num
  simp only [computeWeightsF32, Float4.fabs, hz, if_false, rawWeightsF32, normalizeWeightsF32,
    totalF32, cullWeightsF32]
  rw [show |(0 : ℚ)| = 0 by norm_num, show |(1 / 1024 : ℚ)| = 1 / 1024 by norm_num, p0, p1]
  simp [F32.add_fin, F32.ofRat_zero, F32.div, F32.lt]

theorem computeWeightsF32_near_threshold :
    computeWeightsF32 refPow32 initDefaultF32 ⟨1677, 16768324, 0, 0⟩ =
      ⟨F32.fin (13743895 / 2 ^ 37), F32.fin (8387769 / 2 ^ 23), F32.fin 0⟩ := by
  have hthr : initDefaultF32.kWeightThreshold = 13743895 / 2 ^ 37 := roundF32_threshold
  have hexp : initDefaultF32.blendExponent = 1 := rfl
  have p1 : refPow32 1677 1 = F32.fin 1677 := by
    have h := F32.ofRat_natCast 1677 (by norm_num)
    norm_num at h
    simp [refPow32, h]
  have p2 : refPow32 16768324 1 = F32.fin 16768324 := by
    have h := F32.ofRat_natCast 16768324 (by norm_num)
    norm_num at h
    simp [refPow32, h]
  have p3 : refPow32 0 1 = F32.fin 0 := by simp [refPow32]
  have s1 : F32.ofRat (1677 + 16768324) = F32.fin 16770001 := by
    have h := F32.ofRat_natCast 16770001 (by norm_num)
    norm_num at h ⊢
    exact h
  have s2 : F32.ofRat (16770001 + 0) = F32.fin 16770001 := by
    have h := F32.ofRat_natCast 16770001 (by norm_num)
    norm_num at h ⊢
    exact h
  have d1 : F32.ofRat (1677 / 16770001) = F32.fin (13743895 / 2 ^ 37) :=
    F32.ofRat_eq_fin roundF32_near_threshold (by norm_num [abs_of_pos])
  have d2 : F32.ofRat (16768324 / 16770001) = F32.fin (8387769 / 2 ^ 23) :=
    F32.ofRat_eq_fin roundF32_near_one (by norm_num [abs_of_pos])
  have hz : ¬ (|(1677 : ℚ)| = 0 ∧ |(16768324 : ℚ)| = 0 ∧ |(0 : ℚ)| = 0) := by norm_num
  simp only [computeWeightsF32, Float4.fabs, hz, if_false, rawWeightsF32, normalizeWeightsF32,
    totalF32, cullWeightsF32, hexp, hthr]
  rw [show |(1677 : ℚ)| = 1677 by norm_num, show |(16768324 : ℚ)| = 16768324 by norm_num,
    show |(0 : ℚ)| = 0 by norm_num, p1, p2, p3]
  simp only [F32.add_fin, s1, s2, F32.div_fin _ _ (by norm_num : (16770001 : ℚ) ≠ 0), d1, d2,
    zero_div, F32.ofRat_zero, F32.lt_fin]
  norm_num

theorem computeWeightsF32_thirds :
    computeWeightsF32 refPow32 initDefaultF32 ⟨1, 1, 1, 0⟩ =
      ⟨F32.fin (11184811 / 2 ^ 25), F32.fin (11184811 / 2 ^ 25),
        F32.fin (11184811 / 2 ^ 25)⟩ := by
  have hthr : initDefaultF32.kWeightThreshold = 13743895 / 2 ^ 37 := roundF32_threshold
  have hexp : initDefaultF32.blendExponent = 1 := rfl
  have p1 : refPow32 1 1 = F32.fin 1 := by
    have h := F32.ofRat_natCast 1 (by norm_num)
    norm_num at h
    simp [refPow32, h]
  have s1 : F32.ofRat (1 + 1) = F32.fin 2 := by
    have h := F32.ofRat_natCast 2 (by norm_num)
    norm_num at h ⊢
    exact h
  have s2 : F32.ofRat (2 + 1) = F32.fin 3 := by
    have h := F32.ofRat_natCast 3 (by norm_num)
    norm_num at h ⊢
    exact h
  have d1 : F32.ofRat (1 / 3) = F32.fin (11184811 / 2 ^ 25) :=
    F32.ofRat_eq_fin roundF32_third (by norm_num [abs_of_pos])
  have hz : ¬ (|(1 : ℚ)| = 0 ∧ |(1 : ℚ)| = 0 ∧ |(1 : ℚ)| = 0) := by norm_num
  simp only [computeWeightsF32, Float4.fabs, hz, if_false, rawWeightsF32, normalizeWeightsF32,
    totalF32, cullWeightsF32, hexp, hthr]
  rw [show |(1 : ℚ)| = 1 by norm_num, p1]
  simp only [F32.add_fin, s1, s2, F32.div_fin _ _ (by norm_num : (3 : ℚ) ≠ 0), d1, F32.lt_fin]
  norm_num
/-- C3, as stated, fails; four inputs, evaluated in float32 with the threshold that `init`
stores. (a) Normal `(0, 0, 1)`, `blendExponent = -2`: `pow(0, -2)` is `+∞`, the sum is `+∞` and
the returned triple is `(NaN, NaN, 0)`. (b) Normal `(2^-10, 0, 0)`, `blendExponent = 16`: the
power `2^-160` underflows to `0`, the sum is `0` and the returned triple is `(NaN, NaN, NaN)`.
(c) Normal `(1677, 16768324, 0)`, `blendExponent = 1`: the normalized x weight is
`13743895 / 2^37`, below `1e-4`, and it is returned unchanged, not as `0`. (d) Normal
`(1, 1, 1)`, `blendExponent = 1`: each returned weight is `11184811 / 2^25` and the three sum to
more than `1`. -/
theorem computeWeights_float32_counterexample :
    computeWeightsF32 refPow32 { initDefaultF32 with blendExponent := -2 } ⟨0, 0, 1, 0⟩ =
      ⟨F32.nan, F32.nan, F32.fin 0⟩ ∧
    computeWeightsF32 refPow32 { initDefaultF32 with blendExponent := 16 } ⟨1 / 1024, 0, 0, 0⟩ =
      ⟨F32.nan, F32.nan, F32.nan⟩ ∧
    (computeWeightsF32 refPow32 initDefaultF32 ⟨1677, 16768324, 0, 0⟩ =
        ⟨F32.fin (13743895 / 2 ^ 37), F32.fin (8387769 / 2 ^ 23), F32.fin 0⟩ ∧
      (13743895 / 2 ^ 37 : ℚ) < 1 / 10000 ∧ (13743895 / 2 ^ 37 : ℚ) ≠ 0) ∧
    (computeWeightsF32 refPow32 initDefaultF32 ⟨1, 1, 1, 0⟩ =
        ⟨F32.fin (11184811 / 2 ^ 25), F32.fin (11184811 / 2 ^ 25),
          F32.fin (11184811 / 2 ^ 25)⟩ ∧
      (1 : ℚ) < 11184811 / 2 ^ 25 + 11184811 / 2 ^ 25 + 11184811 / 2 ^ 25) :=
  ⟨computeWeightsF32_pole, computeWeightsF32_underflow,
    ⟨computeWeightsF32_near_threshold, by norm_num, by norm_num⟩,
    ⟨computeWeightsF32_thirds, by norm_num⟩⟩

theorem totalF32_example :
    totalF32 (rawWeightsF32 refPow32 initDefaultF32 (Float4.fabs ⟨1, -1, 2, 0⟩)) = F32.fin 4 := by
  have hexp : initDefaultF32.blendExponent = 1 := rfl
  have p1 : refPow32 1 1 = F32.fin 1 := by
    have h := F32.ofRat_natCast 1 (by norm_num)
    norm_num at h
    simp [refPow32, h]
  have p2 : refPow32 2 1 = F32.fin 2 := by
    have h := F32.ofRat_natCast 2 (by norm_num)
    norm_num at h
    simp [refPow32, h]
  have s1 : F32.ofRat (1 + 1) = F32.fin 2 := by
    have h := F32.ofRat_natCast 2 (by norm_num)
    norm_num at h ⊢
    exact h
  have s2 : F32.ofRat (2 + 2) = F32.fin 4 := by
    have h := F32.ofRat_natCast 4 (by norm_num)
    norm_num at h ⊢
    exact h
  simp only [totalF32, rawWeightsF32, Float4.fabs, hexp]
  rw [show |(1 : ℚ)| = 1 by norm_num, show |(-1 : ℚ)| = 1 by norm_num,
    show |(2 : ℚ)| = 2 by norm_num, p1, p2]
  simp only [F32.add_fin, s1, s2]

/-- Witness of `computeWeightsF32_threshold`: the normal `(1, -1, 2)` with the default
exponent, whose raw weights sum to `4`. -/
theorem computeWeightsF32_threshold_witness :
    ∃ nw w : Float3,
      normalizeWeightsF32 (rawWeightsF32 refPow32 initDefaultF32 (Float4.fabs ⟨1, -1, 2, 0⟩)) =
        ⟨F32.fin nw.x, F32.fin nw.y, F32.fin nw.z⟩ ∧
      computeWeightsF32 refPow32 initDefaultF32 ⟨1, -1, 2, 0⟩ =
        ⟨F32.fin w.x, F32.fin w.y, F32.fin w.z⟩ ∧
      w.x = (if nw.x < initDefaultF32.kWeightThreshold then 0 else nw.x) ∧
      w.y = (if nw.y < initDefaultF32.kWeightThreshold then 0 else nw.y) ∧
      w.z = (if nw.z < initDefaultF32.kWeightThreshold then 0 else nw.z) ∧
      (0 ≤ w.x ∧ w.x ≤ 1) ∧ (0 ≤ w.y ∧ w.y ≤ 1) ∧ (0 ≤ w.z ∧ w.z ≤ 1) ∧
      w.x + w.y + w.z ≤ 1 + 1 / 2 ^ 22 :=
  (computeWeightsF32_threshold refPow32 initDefaultF32 ⟨1, -1, 2, 0⟩ refPow32_spec rfl).2.2.1 4
    (Or.inl (by norm_num)) totalF32_example (by norm_num)

end Triplanar
